import Mathlib

/-! Galton board simulator (`lab-01-galton-board.c`): embedding and verification.

The C program is embedded shallowly:

* C `int` values are `Int` (every quantity of the program stays far below
  `2^31`), `uint8_t` values are `Nat` reduced modulo 256 when stored;
* `/` and `%` on `int` are the truncating `Int.tdiv` and `Int.tmod`;
* the frame buffer `uint8_t *buffer` is a `List Nat`, addressed by the same
  flat index `x + page * DISPLAY_WIDTH` the source computes;
* the global pair `channels` / `total_channels` is a `List Channel`
  (`total_channels` is its length), `Ball balls[]` / `count` is a `List Ball`,
  and `int *bit_positions` is a `List Int`;
* an access outside an array has no defined meaning in C.  The embedding is
  total: such a read yields `0` and such a write is dropped.  Every concrete
  trace used below to evaluate the code stays inside the arrays, and the
  out-of-range accesses of the code are stated as facts about the index it
  computes;
* the hardware collaborators are inputs: the value returned by `adc_read()`,
  the two `gpio_get` samples of the button, and the text routine
  `ssd1306_draw_string`.
-/

namespace Galton

/-! ## Constants -/

def DISPLAY_WIDTH : Int := 128
def DISPLAY_HEIGHT : Int := 64
def DISPLAY_PAGES : Int := Int.tdiv DISPLAY_HEIGHT 8

/-- Modelled from the spec: the constant `ssd1306_buffer_length` of the display
driver header, which is not part of the sources; the frame buffer is "a flat
byte array of `width * pages` bytes", that is 128 * 8. -/
def ssd1306_buffer_length : Nat := 1024

/-- The local constant `TOTAL_BALLS` of `main`. -/
def TOTAL_BALLS : Int := 1000

/-! ## Data model -/

/-- The C struct `Ball`. -/
structure Ball where
  speed : Int
  x_left : Int
  x_right : Int
  y : Int
  pattern : Nat
  channel : Int
  registered : Int
  collision_dir : Int
  prev_page : Int
  page_changed : Int
  active : Int
deriving DecidableEq, Repr

/-- The C struct `Channel`. -/
structure Channel where
  start_col : Int
  end_col : Int
  current_col : Int
  bit_positions : List Int
  ball_count : Int
deriving DecidableEq, Repr

instance : Inhabited Ball := ⟨⟨0, 0, 0, 0, 0, 0, 0, 0, 0, 0, 0⟩⟩
instance : Inhabited Channel := ⟨⟨0, 0, 0, [], 0⟩⟩

abbrev Buffer := List Nat

/-- One marker write: the column, the page and the bit mask OR-ed in. -/
structure Marker where
  col : Int
  page : Int
  mask : Nat
deriving DecidableEq, Repr

/-! ## Frame buffer primitives -/

/-- Read of `buffer[i]`. -/
def buf_get (buffer : Buffer) (i : Int) : Nat :=
  if 0 ≤ i then buffer.getD i.toNat 0 else 0

/-- Store `buffer[i] = v` (a `uint8_t` store). -/
def buf_set (buffer : Buffer) (i : Int) (v : Nat) : Buffer :=
  if 0 ≤ i then buffer.set i.toNat (v % 256) else buffer

/-- The statement `buffer[i] |= mask`. -/
def buf_or (buffer : Buffer) (i : Int) (mask : Nat) : Buffer :=
  buf_set buffer i (buf_get buffer i ||| mask)

/-- The statement `buffer[i] &= ~mask`. -/
def buf_clear (buffer : Buffer) (i : Int) (mask : Nat) : Buffer :=
  buf_set buffer i (buf_get buffer i &&& (255 ^^^ (mask % 256)))

/-- The zeroed frame buffer of `ssd1306_buffer_length` bytes. -/
def buf_zero : Buffer := List.replicate ssd1306_buffer_length 0

/-- The call `memset(buffer, 0, ssd1306_buffer_length)` on the frame buffer,
an array of exactly `ssd1306_buffer_length` bytes. -/
def memset_zero (_buffer : Buffer) : Buffer := buf_zero

/-- Read of `bit_positions[col]`. -/
def bits_get (bits : List Int) (col : Int) : Int :=
  if 0 ≤ col then bits.getD col.toNat 0 else 0

/-- The statement `bit_positions[col]++`. -/
def bits_incr (bits : List Int) (col : Int) : List Int :=
  if 0 ≤ col then bits.set col.toNat (bits.getD col.toNat 0 + 1) else bits

/-! ## `init_balls` -/

/-- The compound literal assigned to every ball by `init_balls`. -/
def new_ball : Ball :=
  { speed := 1
    x_left := Int.tdiv DISPLAY_WIDTH 2 - 1
    x_right := Int.tdiv DISPLAY_WIDTH 2
    y := 0
    pattern := 0x03
    channel := -1
    registered := 0
    collision_dir := 1
    prev_page := 0
    page_changed := 0
    active := 1 }

/-- The loop of `init_balls`, `i` running from its current value while fuel lasts. -/
def init_balls_loop : Nat → Nat → List Ball → List Ball
  | 0, _, balls => balls
  | fuel + 1, i, balls => init_balls_loop fuel (i + 1) (balls.set i new_ball)

def init_balls (balls : List Ball) (count : Nat) : List Ball :=
  init_balls_loop count 0 balls

/-! ## `init_channels` and `draw_pins` -/

/-- The channel literal built for index `i` in `init_channels`, with its
zeroed `bit_positions` array of `end_col - start_col` entries. -/
def new_channel (i : Int) : Channel :=
  let channel_width : Int := 8
  let x := Int.tdiv DISPLAY_WIDTH 4 + 4 + i * channel_width
  let start_col := x
  let end_col := x + channel_width
  { start_col := start_col
    end_col := end_col
    current_col := if x > Int.tdiv DISPLAY_WIDTH 2 then x else x + channel_width
    bit_positions := List.replicate (end_col - start_col).toNat 0
    ball_count := 0 }

/-- The value assigned to `total_channels` by `init_channels`. -/
def total_channels_value : Int :=
  Int.tdiv (Int.tdiv (DISPLAY_WIDTH * 3) 4 - Int.tdiv DISPLAY_WIDTH 4) 8

/-- The loop of `init_channels`. -/
def init_channels_loop : Nat → Int → List Channel → Buffer → List Channel × Buffer
  | 0, _, channels, buffer => (channels, buffer)
  | fuel + 1, i, channels, buffer =>
    let page := Int.tdiv (DISPLAY_HEIGHT - 8) 8
    let channel_width : Int := 8
    let x := Int.tdiv DISPLAY_WIDTH 4 + 4 + i * channel_width
    init_channels_loop fuel (i + 1) (channels ++ [new_channel i])
      (buf_set buffer (x + page * DISPLAY_WIDTH) 0xFF)

def init_channels (buffer : Buffer) : List Channel × Buffer :=
  init_channels_loop total_channels_value.toNat 0 [] buffer

/-- The inner loop of `draw_pins`: `j` from its current value up to `pin_count`. -/
def draw_pins_row : Nat → Int → Int → Int → Buffer → Buffer
  | 0, _, _, _, buffer => buffer
  | fuel + 1, j, start_x, y, buffer =>
    let x := start_x + j * 8
    let page := Int.tdiv y 8
    let mask := (1 <<< (Int.tmod y 8).toNat) % 256
    draw_pins_row fuel (j + 1) start_x y (buf_or buffer (x + page * DISPLAY_WIDTH) mask)

/-- The outer loop of `draw_pins`; it stops by its own condition
`y < DISPLAY_HEIGHT - 8`. -/
def draw_pins_loop : Nat → Int → Int → Int → Buffer → Buffer
  | 0, _, _, _, buffer => buffer
  | fuel + 1, y, pin_count, start_x, buffer =>
    if y < DISPLAY_HEIGHT - 8 then
      let pin_count := pin_count + 1
      let buffer := draw_pins_row pin_count.toNat 0 start_x y buffer
      draw_pins_loop fuel (y + 8) pin_count (start_x - 4) buffer
    else buffer

def draw_pins (buffer : Buffer) : Buffer :=
  draw_pins_loop DISPLAY_HEIGHT.toNat 8 0 (Int.tdiv DISPLAY_WIDTH 2) buffer

/-! ## Ball drawing and motion -/

def draw_ball (ball : Ball) (buffer : Buffer) : Buffer :=
  let page := Int.tdiv ball.y 8
  let buffer := buf_or buffer (ball.x_left + page * DISPLAY_WIDTH) ball.pattern
  buf_or buffer (ball.x_right + page * DISPLAY_WIDTH) ball.pattern

def erase_ball (ball : Ball) (buffer : Buffer) : Buffer :=
  let page := Int.tdiv ball.y 8
  let buffer := buf_clear buffer (ball.x_left + page * DISPLAY_WIDTH) ball.pattern
  buf_clear buffer (ball.x_right + page * DISPLAY_WIDTH) ball.pattern

def check_collision (ball : Ball) (buffer : Buffer) : Int :=
  let page := Int.tdiv ball.y 8
  let next_page := Int.tdiv (ball.y + 8) 8
  let mask := (ball.pattern <<< ball.speed.toNat) % 256
  let next_mask := (ball.pattern >>> (8 - ball.speed).toNat) % 256
  if (buf_get buffer (ball.x_left + page * DISPLAY_WIDTH) &&& mask) ≠ 0 ∨
     (buf_get buffer (ball.x_right + page * DISPLAY_WIDTH) &&& mask) ≠ 0 ∨
     (buf_get buffer (ball.x_left + next_page * DISPLAY_WIDTH) &&& next_mask) ≠ 0 ∨
     (buf_get buffer (ball.x_right + next_page * DISPLAY_WIDTH) &&& next_mask) ≠ 0
  then 1 else 0

def move_ball_x (ball : Ball) (buffer : Buffer) (direction : Int) : Ball × Buffer :=
  let buffer := erase_ball ball buffer
  let ball :=
    if direction ≠ 0 then
      let ball := { ball with x_left := ball.x_left - 2 }
      let ball := { ball with x_right := ball.x_left - 1 }
      { ball with collision_dir := 0 }
    else
      let ball := { ball with x_left := ball.x_left + 2 }
      let ball := { ball with x_right := ball.x_left + 1 }
      { ball with collision_dir := 1 }
  (ball, draw_ball ball buffer)

def move_ball_y (ball : Ball) (buffer : Buffer) : Ball × Buffer :=
  let buffer := erase_ball ball buffer
  let (ball, buffer) :=
    if ball.pattern >>> (8 - ball.speed).toNat > 0 then
      let ball := { ball with pattern := (ball.pattern >>> (8 - ball.speed).toNat) % 256 }
      let ball := { ball with prev_page := ball.y }
      let ball := { ball with y := ball.y + 8 }
      ({ ball with page_changed := 1 }, buffer)
    else
      let (ball, buffer) :=
        if ball.page_changed ≠ 0 then
          let trail := ball.pattern <<< (8 - ball.speed).toNat
          let buffer := buf_clear buffer
            (ball.x_left + Int.tdiv ball.prev_page 8 * DISPLAY_WIDTH) trail
          let buffer := buf_clear buffer
            (ball.x_right + Int.tdiv ball.prev_page 8 * DISPLAY_WIDTH) trail
          ({ ball with page_changed := 0 }, buffer)
        else (ball, buffer)
      ({ ball with pattern := (ball.pattern <<< ball.speed.toNat) % 256 }, buffer)
  if ball.y ≥ DISPLAY_HEIGHT - 8 then
    ({ ball with active := 0 }, buffer)
  else
    (ball, draw_ball ball buffer)

/-! ## Registration -/

/-- The marker written by `register_ball` for a channel: column `current_col`,
page `(DISPLAY_HEIGHT - 1) / 8`, mask `0x80 >> bit_pos`. The C expression
`bit_positions[col] & 0x07` on a two's-complement `int` is the remainder in
`0..7`, written `% 8` here. -/
def register_marker (channel : Channel) : Marker :=
  let col := channel.current_col - channel.start_col
  let bit_pos := bits_get channel.bit_positions col % 8
  let page := Int.tdiv (DISPLAY_HEIGHT - 1) 8
  { col := channel.current_col, page := page, mask := 0x80 >>> bit_pos.toNat }

def register_ball (ball : Ball) (buffer : Buffer) (channels : List Channel) :
    Ball × Buffer × List Channel :=
  if ball.channel = -1 ∨ ball.registered ≠ 0 then (ball, buffer, channels)
  else
    let channel := channels.getD ball.channel.toNat default
    let col := channel.current_col - channel.start_col
    let m := register_marker channel
    let buffer := buf_or buffer (m.col + m.page * DISPLAY_WIDTH) m.mask
    let channel := { channel with bit_positions := bits_incr channel.bit_positions col }
    let ball := { ball with registered := 1 }
    let channel :=
      if channel.start_col > Int.tdiv DISPLAY_WIDTH 2 then
        let channel := { channel with current_col := channel.current_col + 1 }
        if channel.current_col ≥ channel.end_col then
          { channel with current_col := channel.start_col + 1 }
        else channel
      else
        let channel := { channel with current_col := channel.current_col - 1 }
        if channel.current_col ≤ channel.start_col then
          { channel with current_col := channel.end_col - 1 }
        else channel
    (ball, buffer, channels.set ball.channel.toNat channel)

/-- The channel scan of `update_ball` (a `for` loop left by `break`): `i` is
the index of the head of the remaining channels. -/
def scan_channels (ball : Ball) : List Channel → Int → Ball × List Channel
  | [], _ => (ball, [])
  | c :: rest, i =>
    if ball.x_left ≥ c.start_col ∧ ball.x_right ≤ c.end_col then
      ({ ball with channel := i }, { c with ball_count := c.ball_count + 1 } :: rest)
    else
      let r := scan_channels ball rest (i + 1)
      (r.1, c :: r.2)

/-- The function `update_ball`; `adc` is the value `adc_read()` returns if it
is called. -/
def update_ball (ball : Ball) (buffer : Buffer) (channels : List Channel) (adc : Nat) :
    Ball × Buffer × List Channel :=
  if ball.active = 0 then
    let r := if ball.channel = -1 then scan_channels ball channels 0 else (ball, channels)
    register_ball r.1 buffer r.2
  else
    let r :=
      if check_collision ball buffer ≠ 0 then
        move_ball_x ball buffer ((adc &&& 0x01 : Nat) : Int)
      else (ball, buffer)
    let r := move_ball_y r.1 r.2
    (r.1, r.2, channels)

/-! ## Histogram view -/

/-- The call `snprintf(count_str, sizeof(count_str), "%d", n)` with a
10-byte array: at most nine characters are kept. -/
def count_str (n : Int) : String := (toString n).take 9

/-- The first loop of `show_distribution`; `draw_string` stands for the
driver routine `ssd1306_draw_string`. -/
def draw_counts (draw_string : Buffer → Int → Int → String → Buffer) :
    List Channel → Int → Buffer → Buffer
  | [], _, buffer => buffer
  | c :: rest, x, buffer =>
    draw_counts draw_string rest (x + 20) (draw_string buffer x 0 (count_str c.ball_count))

/-- The marker written by iteration `j` of the inner loop of `show_distribution`. -/
def dist_marker (channel : Channel) (j : Int) : Marker :=
  let bit_pos := Int.tmod j 8
  let page := Int.tdiv (DISPLAY_HEIGHT - 1 - Int.tdiv j 8) 8
  { col := channel.current_col, page := page, mask := 0x80 >>> bit_pos.toNat }

/-- One iteration of the inner loop of `show_distribution`. -/
def dist_body (channel : Channel) (buffer : Buffer) (j : Int) : Channel × Buffer :=
  let m := dist_marker channel j
  let buffer := buf_or buffer (m.col + m.page * DISPLAY_WIDTH) m.mask
  let channel :=
    if channel.start_col > Int.tdiv DISPLAY_WIDTH 2 then
      let channel := { channel with current_col := channel.current_col + 1 }
      if channel.current_col ≥ channel.end_col then
        { channel with current_col := channel.start_col + 1 }
      else channel
    else
      let channel := { channel with current_col := channel.current_col - 1 }
      if channel.current_col ≤ channel.start_col then
        { channel with current_col := channel.end_col - 1 }
      else channel
  (channel, buffer)

/-- The inner loop `for (j = ...; j < channel->ball_count; j++)`. -/
def dist_loop : Nat → Int → Channel → Buffer → Channel × Buffer
  | 0, _, channel, buffer => (channel, buffer)
  | fuel + 1, j, channel, buffer =>
    if j < channel.ball_count then
      let r := dist_body channel buffer j
      dist_loop fuel (j + 1) r.1 r.2
    else (channel, buffer)

/-- The assignment to `current_col` that opens each round of the second loop. -/
def dist_reset (channel : Channel) : Channel :=
  { channel with
    current_col :=
      if channel.start_col > Int.tdiv DISPLAY_WIDTH 2 then channel.start_col
      else channel.end_col - 1 }

/-- The second loop of `show_distribution`, over the channels in order. The
local `col = abs(...)` of the source is never read and is left out. -/
def dist_channels : List Channel → Buffer → List Channel × Buffer
  | [], buffer => ([], buffer)
  | c :: rest, buffer =>
    let r := dist_loop c.ball_count.toNat 0 (dist_reset c) buffer
    let q := dist_channels rest r.2
    (r.1 :: q.1, q.2)

def show_distribution (draw_string : Buffer → Int → Int → String → Buffer)
    (channels : List Channel) (buffer : Buffer) : List Channel × Buffer :=
  let buffer := memset_zero buffer
  let buffer := draw_counts draw_string channels 0 buffer
  dist_channels channels buffer

/-! ## The driver -/

/-- The variables of `main` together with the globals. -/
structure Sim where
  channels : List Channel
  distribution_view : Int
  display_buffer : Buffer
  balls : List Ball
  current_ball : Int

def reset_simulation (s : Sim) (count : Nat) : Sim :=
  let s := { s with channels := [] }
  let s := { s with balls := init_balls s.balls count }
  let buffer := memset_zero s.display_buffer
  let r := init_channels buffer
  let buffer := draw_pins r.2
  { s with channels := r.1, display_buffer := buffer, distribution_view := 0 }

/-- The function `handle_button`; `gpio1` and `gpio2` are the two samples of
`gpio_get(BUTTON_A_PIN)` (the second one is taken only if the first is 0).
Returns the new state and the boolean result. -/
def handle_button (draw_string : Buffer → Int → Int → String → Buffer)
    (s : Sim) (gpio1 gpio2 : Int) : Sim × Bool :=
  if gpio1 = 0 then
    if gpio2 = 0 then
      if s.distribution_view = 0 then
        let r := show_distribution draw_string s.channels s.display_buffer
        ({ s with channels := r.1, display_buffer := r.2, distribution_view := 1 }, true)
      else
        let s := reset_simulation s TOTAL_BALLS.toNat
        ({ s with current_ball := 0, distribution_view := 0 }, true)
    else (s, false)
  else (s, false)

/-- The state of `main` when the `while` loop is entered. -/
def main_init : Sim :=
  let r := init_channels (memset_zero [])
  let buffer := draw_pins r.2
  { channels := r.1
    distribution_view := 0
    display_buffer := buffer
    balls := init_balls (List.replicate TOTAL_BALLS.toNat default) TOTAL_BALLS.toNat
    current_ball := 0 }

/-- One pass through the body of `while (true)` in `main`. -/
def main_step (draw_string : Buffer → Int → Int → String → Buffer)
    (s : Sim) (gpio1 gpio2 : Int) (adc : Nat) : Sim :=
  if s.current_ball ≥ TOTAL_BALLS then
    (handle_button draw_string s gpio1 gpio2).1
  else
    let k := (Int.tmod s.current_ball TOTAL_BALLS).toNat
    let ball := s.balls.getD k default
    if ball.registered ≠ 0 then
      { s with current_ball := s.current_ball + 1 }
    else
      let r := update_ball ball s.display_buffer s.channels adc
      { s with
        balls := s.balls.set k r.1
        display_buffer := r.2.1
        channels := r.2.2
        current_ball := s.current_ball + 1 }


/-! ## Counting and reachability -/

/-- Sum of `ball_count` over all channels. -/
def total_ball_count (channels : List Channel) : Int :=
  (channels.map (fun c => c.ball_count)).sum

/-- Number of balls whose `registered` flag is 1. -/
def registered_count (balls : List Ball) : Nat :=
  balls.countP (fun b => decide (b.registered = 1))

/-- A call `update_ball(&balls[k], display_buffer)`. -/
def sim_update (s : Sim) (k : Nat) (adc : Nat) : Sim :=
  let r := update_ball (s.balls.getD k default) s.display_buffer s.channels adc
  { s with balls := s.balls.set k r.1, display_buffer := r.2.1, channels := r.2.2 }

/-- A call `show_distribution(display_buffer)`. -/
def sim_distribution (draw_string : Buffer → Int → Int → String → Buffer) (s : Sim) : Sim :=
  let r := show_distribution draw_string s.channels s.display_buffer
  { s with channels := r.1, display_buffer := r.2 }

/-- States reached from the initial state by calls of `update_ball` on balls
of the pool, of `show_distribution` and of `reset_simulation`. -/
inductive Reachable : Sim → Prop
  | init : Reachable main_init
  | update {s : Sim} (k adc : Nat) : Reachable s → k < s.balls.length →
      Reachable (sim_update s k adc)
  | distribution {s : Sim} (draw_string : Buffer → Int → Int → String → Buffer) :
      Reachable s → Reachable (sim_distribution draw_string s)
  | reset {s : Sim} : Reachable s → Reachable (reset_simulation s TOTAL_BALLS.toNat)

/-- A ball is either not yet counted (no channel) or counted once (flag 1 and a channel). -/
def ball_ok (b : Ball) : Prop :=
  (b.registered = 0 ∧ b.channel = -1) ∨ (b.registered = 1 ∧ b.channel ≠ -1)

/-- The flag of a ball as a number. -/
def reg_flag (b : Ball) : Int := if b.registered = 1 then 1 else 0

/-- A channel with its scratch field `current_col` blanked. -/
def channel_frame (c : Channel) : Channel := { c with current_col := 0 }

/-- The invariant behind the counting property. -/
def count_inv (s : Sim) : Prop :=
  (∀ b ∈ s.balls, ball_ok b) ∧
  total_ball_count s.channels = (registered_count s.balls : Int) ∧
  s.balls.length = 1000

/-! ## Driver runs, ball reachability and marker traces -/

/-- The state after `n` passes through the loop body of `main`. -/
def main_run (draw_string : Buffer → Int → Int → String → Buffer)
    (gpio : Nat → Int × Int) (adc : Nat → Nat) : Nat → Sim
  | 0 => main_init
  | n + 1 =>
    main_step draw_string (main_run draw_string gpio adc n) (gpio n).1 (gpio n).2 (adc n)

def single_pass_inv (n : Nat) (s : Sim) : Prop :=
  s.current_ball = (n : Int) ∧ s.balls.length = 1000 ∧
  (∀ j, n ≤ j → j < 1000 → s.balls[j]? = some new_ball) ∧
  (∀ b ∈ s.balls, b.registered = 0 ∧ b.active = 1) ∧
  s.channels = (init_channels buf_zero).1

/-- States reached from the initial state when every `adc_read() & 0x01` is 0. -/
inductive ReachableFalse : Sim → Prop
  | init : ReachableFalse main_init
  | update {s : Sim} (k adc : Nat) : ReachableFalse s → k < s.balls.length →
      adc &&& 0x01 = 0 → ReachableFalse (sim_update s k adc)
  | distribution {s : Sim} (draw_string : Buffer → Int → Int → String → Buffer) :
      ReachableFalse s → ReachableFalse (sim_distribution draw_string s)
  | reset {s : Sim} : ReachableFalse s → ReachableFalse (reset_simulation s TOTAL_BALLS.toNat)

/-- A ball that never moved left of the start columns and is not in channel 0. -/
def ball_right (b : Ball) : Prop :=
  63 ≤ b.x_left ∧ b.x_right = b.x_left + 1 ∧ (b.channel = -1 ∨ 1 ≤ b.channel)

/-- The leftmost channel is in place and empty. -/
def head_empty (channels : List Channel) : Prop :=
  ∃ c rest, channels = c :: rest ∧ c.start_col = 36 ∧ c.end_col = 44 ∧ c.ball_count = 0

def right_inv (s : Sim) : Prop :=
  (∀ b ∈ s.balls, ball_right b) ∧ head_empty s.channels ∧ s.balls.length = 1000

/-- Ball states reached from the `init_balls` value by calls of `update_ball`,
with any frame buffer, any channel state and any entropy at each call. -/
inductive BallReachable : Ball → Prop
  | init : BallReachable new_ball
  | update {b : Ball} (buffer : Buffer) (channels : List Channel) (adc : Nat) :
      BallReachable b → BallReachable (update_ball b buffer channels adc).1

/-- The invariant of a falling ball: `y` is a multiple of 8 below the base row
while the ball is active, and the base row once it is not. -/
def fall_inv (b : Ball) : Prop :=
  b.y % 8 = 0 ∧ 0 ≤ b.y ∧ (b.active = 0 → b.y = 56) ∧ (b.active ≠ 0 → b.y < 56)

/-- The containment test of the channel scan. -/
def in_channel (ball : Ball) (c : Channel) : Prop :=
  ball.x_left ≥ c.start_col ∧ ball.x_right ≤ c.end_col

/-- A ball that has reached the base row over channel `i` and is not yet registered. -/
def landed_ball (i : Int) : Ball :=
  { new_ball with y := DISPLAY_HEIGHT - 8, channel := i, active := 0 }

/-- The frame buffer and the channels after `n` successive calls of
`register_ball`, each for a landed ball of channel `i`. -/
def register_times (i : Int) : Nat → Buffer → List Channel → Buffer × List Channel
  | 0, buffer, channels => (buffer, channels)
  | n + 1, buffer, channels =>
    let r := register_times i n buffer channels
    let q := register_ball (landed_ball i) r.1 r.2
    (q.2.1, q.2.2)

/-- The marker written by call number `j` (from 0) of `register_ball` on
channel `i` of the freshly built channels. -/
def register_nth_marker (i j : Nat) : Marker :=
  register_marker
    ((register_times i j buf_zero (init_channels buf_zero).1).2.getD i default)

/-- The marker written by iteration `j` of the inner loop of
`show_distribution` on channel `i` of the freshly built channels with
`ball_count = n`: the loop is run for `j` rounds and the next write is taken. -/
def dist_nth_marker (i : Nat) (n : Int) (j : Nat) : Marker :=
  dist_marker
    (dist_loop j 0
      (dist_reset { (init_channels buf_zero).1.getD i default with ball_count := n })
      buf_zero).1 j

/-! ## Spans, fall tracking and test buffers -/

/-- A column lies in the inclusive span of a channel. -/
def in_span (c : Channel) (col : Int) : Prop :=
  c.start_col ≤ col ∧ col ≤ c.end_col

/-- The ball after `n` successive calls of `update_ball`, starting from the
`init_balls` value; call number `t` sees the frame buffer `buffers t`, the
channels `chans t` and the entropy `adcs t`. -/
def ball_after (buffers : Nat → Buffer) (chans : Nat → List Channel) (adcs : Nat → Nat) :
    Nat → Ball
  | 0 => new_ball
  | n + 1 =>
    (update_ball (ball_after buffers chans adcs n) (buffers n) (chans n) (adcs n)).1

/-- The effect of `move_ball_y` on the pair `(y, pattern)` of a ball of speed 1. -/
def fall_step (s : Int × Nat) : Int × Nat :=
  if s.2 >>> 7 > 0 then (s.1 + 8, (s.2 >>> 7) % 256) else (s.1, (s.2 <<< 1) % 256)

/-- The pair `(y, pattern)` after `n` steps from the `init_balls` value. -/
def fall_track : Nat → Int × Nat
  | 0 => (0, 3)
  | n + 1 => fall_step (fall_track n)

/-- A frame buffer with every pixel lit. -/
def buf_full : Buffer := List.replicate ssd1306_buffer_length 255

/-! ## Array accesses in range

The frame buffer primitives above are total: a read outside the list yields 0
and a store outside the list is dropped, where the C program reads or writes
memory outside the array. The predicates below say that every array access of
a call stays inside its array; the model and the program agree on the calls
that satisfy them. -/

/-- The byte index `i` lies inside a frame buffer of `n` bytes. -/
def buf_in (n : Nat) (i : Int) : Prop := 0 ≤ i ∧ i < (n : Int)

/-- The two bytes `draw_ball` and `erase_ball` touch for a ball lie inside a
frame buffer of `n` bytes. -/
def sprite_in (n : Nat) (ball : Ball) : Prop :=
  buf_in n (ball.x_left + Int.tdiv ball.y 8 * DISPLAY_WIDTH) ∧
  buf_in n (ball.x_right + Int.tdiv ball.y 8 * DISPLAY_WIDTH)

/-- The four bytes `check_collision` reads lie inside the frame buffer. -/
def check_collision_in (n : Nat) (ball : Ball) : Prop :=
  sprite_in n ball ∧
  buf_in n (ball.x_left + Int.tdiv (ball.y + 8) 8 * DISPLAY_WIDTH) ∧
  buf_in n (ball.x_right + Int.tdiv (ball.y + 8) 8 * DISPLAY_WIDTH)

/-- The accesses of `move_ball_x`: the sprite is erased at the old columns and
drawn at the new ones. -/
def move_ball_x_in (n : Nat) (ball : Ball) (direction : Int) : Prop :=
  sprite_in n ball ∧ sprite_in n (move_ball_x ball [] direction).1

/-- The accesses of `move_ball_y`: the sprite is erased, the trail of the
previous page is cleared when that branch runs, and the sprite is drawn again
unless the ball has reached the base row. -/
def move_ball_y_in (n : Nat) (ball : Ball) : Prop :=
  sprite_in n ball ∧
  (ball.pattern >>> (8 - ball.speed).toNat > 0 ∨ ball.page_changed = 0 ∨
    (buf_in n (ball.x_left + Int.tdiv ball.prev_page 8 * DISPLAY_WIDTH) ∧
      buf_in n (ball.x_right + Int.tdiv ball.prev_page 8 * DISPLAY_WIDTH))) ∧
  ((move_ball_y ball []).1.y ≥ DISPLAY_HEIGHT - 8 ∨ sprite_in n (move_ball_y ball []).1)

/-- The accesses of `register_ball` when it does register: the channel index,
the index into `bit_positions` (8 counters) and the marker byte. -/
def register_ball_in (n : Nat) (ball : Ball) (channels : List Channel) : Prop :=
  ball.channel = -1 ∨ ball.registered ≠ 0 ∨
  (0 ≤ ball.channel ∧ ball.channel < (channels.length : Int) ∧
    0 ≤ (channels.getD ball.channel.toNat default).current_col -
      (channels.getD ball.channel.toNat default).start_col ∧
    (channels.getD ball.channel.toNat default).current_col -
      (channels.getD ball.channel.toNat default).start_col <
        ((channels.getD ball.channel.toNat default).bit_positions.length : Int) ∧
    buf_in n ((channels.getD ball.channel.toNat default).current_col +
      Int.tdiv (DISPLAY_HEIGHT - 1) 8 * DISPLAY_WIDTH))

/-- Every array access of the call `update_ball(ball, buffer)` stays inside its
array, for a frame buffer of `n` bytes (and the shift amounts are those of a
ball of speed 1). -/
def update_ball_in (n : Nat) (ball : Ball) (buffer : Buffer) (channels : List Channel)
    (adc : Nat) : Prop :=
  if ball.active = 0 then
    register_ball_in n
      (if ball.channel = -1 then scan_channels ball channels 0 else (ball, channels)).1
      (if ball.channel = -1 then scan_channels ball channels 0 else (ball, channels)).2
  else
    ball.speed = 1 ∧ check_collision_in n ball ∧
    (check_collision ball buffer = 0 ∨
      move_ball_x_in n ball ((adc &&& 0x01 : Nat) : Int)) ∧
    move_ball_y_in n
      (if check_collision ball buffer ≠ 0 then
        move_ball_x ball buffer ((adc &&& 0x01 : Nat) : Int) else (ball, buffer)).1

/-- The byte index written by iteration `j` of the marker loop of
`show_distribution` for a channel. -/
def dist_write_index (c : Channel) (j : Nat) : Int :=
  (dist_marker (dist_loop j 0 (dist_reset c) buf_zero).1 j).col +
    (dist_marker (dist_loop j 0 (dist_reset c) buf_zero).1 j).page * DISPLAY_WIDTH

/-- Every marker byte `show_distribution` writes lies inside the frame buffer. -/
def show_distribution_in (n : Nat) (channels : List Channel) : Prop :=
  ∀ c ∈ channels, ∀ j : Nat, j < c.ball_count.toNat → buf_in n (dist_write_index c j)

instance (n : Nat) (i : Int) : Decidable (buf_in n i) := by
  unfold buf_in; infer_instance

instance (n : Nat) (ball : Ball) : Decidable (sprite_in n ball) := by
  unfold sprite_in; infer_instance

instance (n : Nat) (ball : Ball) : Decidable (check_collision_in n ball) := by
  unfold check_collision_in; infer_instance

instance (n : Nat) (ball : Ball) (d : Int) : Decidable (move_ball_x_in n ball d) := by
  unfold move_ball_x_in; infer_instance

instance (n : Nat) (ball : Ball) : Decidable (move_ball_y_in n ball) := by
  unfold move_ball_y_in; infer_instance

instance (n : Nat) (ball : Ball) (channels : List Channel) :
    Decidable (register_ball_in n ball channels) := by
  unfold register_ball_in; infer_instance

instance (n : Nat) (ball : Ball) (buffer : Buffer) (channels : List Channel) (adc : Nat) :
    Decidable (update_ball_in n ball buffer channels adc) := by
  unfold update_ball_in; infer_instance

/-- States reached from the initial state by calls of `update_ball` on balls
of the pool, of `show_distribution` and of `reset_simulation`, where every
call keeps all its array accesses in range and every entropy value read
satisfies `entropy`. -/
inductive SafeReachable (entropy : Nat → Prop) : Sim → Prop
  | init : SafeReachable entropy main_init
  | update {s : Sim} (k adc : Nat) : SafeReachable entropy s → k < s.balls.length →
      entropy adc →
      update_ball_in ssd1306_buffer_length (s.balls.getD k default) s.display_buffer
        s.channels adc →
      SafeReachable entropy (sim_update s k adc)
  | distribution {s : Sim} (draw_string : Buffer → Int → Int → String → Buffer) :
      SafeReachable entropy s → show_distribution_in ssd1306_buffer_length s.channels →
      SafeReachable entropy (sim_distribution draw_string s)
  | reset {s : Sim} : SafeReachable entropy s →
      SafeReachable entropy (reset_simulation s TOTAL_BALLS.toNat)

/-- The state after `n` successive calls `update_ball(&balls[k], display_buffer)`;
`adc i` is the value `adc_read()` returns if call number `i` reads it. -/
def drop_ball : Nat → Sim → Nat → (Nat → Nat) → Sim
  | 0, s, _, _ => s
  | n + 1, s, k, adc => drop_ball n (sim_update s k (adc 0)) k (fun i => adc (i + 1))

/-- A ball that has come to rest on columns 75 and 76, not yet assigned. -/
def resting_ball : Ball :=
  { new_ball with x_left := 75, x_right := 76, y := DISPLAY_HEIGHT - 8, active := 0 }

/-! ## The drop of a ball with entropy 0 -/

/-- The bytes of pages 0 to 6 that hold a pin after `draw_pins`. -/
def pin_bytes : List Nat :=
  [192, 316, 324, 440, 448, 456, 564, 572, 580, 588, 688, 696, 704, 712, 720,
   812, 820, 828, 836, 844, 852]

/-- Pages 0 to 6 of the frame buffer `main` starts with: the pins (the channel
dividers are on page 7). -/
def upper_pages : Buffer := (List.range 896).map (fun k => if k ∈ pin_bytes then 1 else 0)

/-- The byte of `upper_pages` at index `i` (0 outside). -/
def pin_byte (i : Int) : Nat := if 0 ≤ i ∧ i.toNat ∈ pin_bytes then 1 else 0

/-- The two bytes of the sprite are distinct bytes of pages 0 to 6 that hold
no pin. -/
def sprite_free (b : Ball) : Prop :=
  sprite_in 896 b ∧ b.x_left ≠ b.x_right ∧
  pin_byte (b.x_left + Int.tdiv b.y 8 * DISPLAY_WIDTH) = 0 ∧
  pin_byte (b.x_right + Int.tdiv b.y 8 * DISPLAY_WIDTH) = 0

/-- The outcome of `check_collision` for a ball whose sprite is drawn on
`upper_pages`: the sprite bytes hold the pattern, the bytes of the next page
hold the pins. -/
def track_hit (b : Ball) : Prop :=
  (b.pattern % 256) &&& ((b.pattern <<< b.speed.toNat) % 256) ≠ 0 ∨
  (b.pattern % 256) &&& ((b.pattern <<< b.speed.toNat) % 256) ≠ 0 ∨
  pin_byte (b.x_left + Int.tdiv (b.y + 8) 8 * DISPLAY_WIDTH) &&&
    ((b.pattern >>> (8 - b.speed).toNat) % 256) ≠ 0 ∨
  pin_byte (b.x_right + Int.tdiv (b.y + 8) 8 * DISPLAY_WIDTH) &&&
    ((b.pattern >>> (8 - b.speed).toNat) % 256) ≠ 0

instance (b : Ball) : Decidable (sprite_free b) := by
  unfold sprite_free; infer_instance

instance (b : Ball) : Decidable (track_hit b) := by
  unfold track_hit; infer_instance

/-- The ball after `move_ball_x` to the right, if `track_hit` holds. -/
def track_moved (b : Ball) : Ball :=
  if track_hit b then (move_ball_x b [] 0).1 else b

/-- The ball after one `update_ball` call with entropy 0 on a ball whose sprite
is drawn on `upper_pages`. -/
def track_next (b : Ball) : Ball := (move_ball_y (track_moved b) []).1

/-- What one `update_ball` call on a falling ball whose sprite is drawn on
`upper_pages` needs to stay on pages 0 to 6 and to leave the sprite of the
moved ball drawn on `upper_pages`. -/
def track_ok (b : Ball) : Prop :=
  b.active ≠ 0 ∧ b.speed = 1 ∧ check_collision_in ssd1306_buffer_length b ∧ sprite_free b ∧
  (b.x_left + Int.tdiv (b.y + 8) 8 * DISPLAY_WIDTH ≠ b.x_left + Int.tdiv b.y 8 * DISPLAY_WIDTH ∧
    b.x_left + Int.tdiv (b.y + 8) 8 * DISPLAY_WIDTH ≠ b.x_right + Int.tdiv b.y 8 * DISPLAY_WIDTH ∧
    b.x_right + Int.tdiv (b.y + 8) 8 * DISPLAY_WIDTH ≠ b.x_left + Int.tdiv b.y 8 * DISPLAY_WIDTH ∧
    b.x_right + Int.tdiv (b.y + 8) 8 * DISPLAY_WIDTH ≠
      b.x_right + Int.tdiv b.y 8 * DISPLAY_WIDTH) ∧
  ((b.pattern >>> (8 - b.speed).toNat) % 256 = 0 ∨
    (buf_in 896 (b.x_left + Int.tdiv (b.y + 8) 8 * DISPLAY_WIDTH) ∧
      buf_in 896 (b.x_right + Int.tdiv (b.y + 8) 8 * DISPLAY_WIDTH))) ∧
  sprite_free (track_moved b) ∧
  move_ball_y_in 896 (track_moved b) ∧
  ((track_moved b).pattern >>> (8 - (track_moved b).speed).toNat > 0 ∨
    (track_moved b).page_changed = 0 ∨
    (pin_byte ((track_moved b).x_left + Int.tdiv (track_moved b).prev_page 8 * DISPLAY_WIDTH)
        = 0 ∧
      pin_byte ((track_moved b).x_right + Int.tdiv (track_moved b).prev_page 8 * DISPLAY_WIDTH)
        = 0))

instance (b : Ball) : Decidable (track_ok b) := by
  unfold track_ok; infer_instance

/-- The ball of a drop with entropy 0 after `i` calls of `update_ball`, for
`i` up to 54: on page 0 it slides right along its own sprite to column 75, the
pin at column 76 of page 4 deflects it to column 77, and it falls straight
from there. -/
def fall_ball (i : Nat) : Ball :=
  if i = 0 then new_ball
  else if i ≤ 6 then { new_ball with x_left := 61 + 2 * i, x_right := 62 + 2 * i,
                                     pattern := 3 <<< i }
  else
    { new_ball with
      x_left := if i < 31 then 75 else 77
      x_right := if i < 31 then 76 else 78
      y := 8 * (1 + ((i - 7) / 8 : Nat))
      pattern := 1 <<< ((i - 7) % 8)
      prev_page := 8 * ((i - 7) / 8 : Nat)
      page_changed := if (i - 7) % 8 = 0 then 1 else 0 }

/-- A ball that has come to rest on columns `x` and `x + 1` at the end of a
drop, not yet assigned to a channel. -/
def rest_ball (x : Int) : Ball :=
  { new_ball with x_left := x, x_right := x + 1, y := 56, pattern := 1, prev_page := 48,
                  page_changed := 1, active := 0 }

/-- The channels during successive drops with entropy 0: the eight channels
stand on their columns, channel 5 has received `n` balls and keeps its marker
column and its counters in range, the other channels have received no ball. -/
def right_channels (n : Nat) (chs : List Channel) : Prop :=
  chs.length = 8 ∧
  (∀ j : Nat, j < 8 → (chs.getD j default).start_col = 36 + 8 * (j : Int) ∧
      (chs.getD j default).end_col = 44 + 8 * (j : Int)) ∧
  (∀ j : Nat, j < 8 → j ≠ 5 → (chs.getD j default).ball_count = 0) ∧
  (chs.getD 5 default).ball_count = (n : Int) ∧
  76 ≤ (chs.getD 5 default).current_col ∧ (chs.getD 5 default).current_col ≤ 83 ∧
  (chs.getD 5 default).bit_positions.length = 8

/-- The state `s` with ball `k` of the pool, the frame buffer and the channels
replaced. -/
def with_ball (s : Sim) (k : Nat) (b : Ball) (buffer : Buffer) (channels : List Channel) :
    Sim :=
  { s with balls := s.balls.set k b, display_buffer := buffer, channels := channels }

/-- The run in which the balls of the pool are dropped one after the other
from the initial state: ball `n` gets 56 successive calls of `update_ball`
(55 moves and the registering call) once the balls before it are at rest;
`adc n i` is the value `adc_read()` returns in call `i` on ball `n`. -/
def seq_drop (adc : Nat → Nat → Nat) : Nat → Sim
  | 0 => main_init
  | n + 1 => drop_ball 56 (seq_drop adc n) n (adc n)

/-- The state after `n` drops with entropy 0: pages 0 to 6 of the frame buffer
hold the pins only, the first `n` balls are registered in channel 5, the
other balls are as `init_balls` left them. -/
def seq_inv (n : Nat) (s : Sim) : Prop :=
  s.balls.length = 1000 ∧
  (∀ k : Nat, k < n → (s.balls.getD k default).registered = 1 ∧
    (s.balls.getD k default).channel = 5 ∧ (s.balls.getD k default).active = 0 ∧
    ((s.balls.getD k default).x_left = 77 ∨ (s.balls.getD k default).x_left = 79)) ∧
  (∀ k : Nat, n ≤ k → k < 1000 → s.balls.getD k default = new_ball) ∧
  (∃ T : Buffer, T.length = 128 ∧ s.display_buffer = upper_pages ++ T) ∧
  right_channels n s.channels

/-! # Theorems -/

theorem move_ball_y_fields (ball : Ball) (buffer : Buffer) :
    (move_ball_y ball buffer).1.registered = ball.registered ∧
    (move_ball_y ball buffer).1.channel = ball.channel ∧
    (move_ball_y ball buffer).1.x_left = ball.x_left ∧
    (move_ball_y ball buffer).1.x_right = ball.x_right ∧
    (move_ball_y ball buffer).1.speed = ball.speed := by
  unfold move_ball_y
  simp only []
  split_ifs <;> simp

theorem move_ball_x_fields (ball : Ball) (buffer : Buffer) (d : Int) :
    (move_ball_x ball buffer d).1.registered = ball.registered ∧
    (move_ball_x ball buffer d).1.channel = ball.channel ∧
    (move_ball_x ball buffer d).1.y = ball.y ∧
    (move_ball_x ball buffer d).1.active = ball.active ∧
    (move_ball_x ball buffer d).1.pattern = ball.pattern ∧
    (move_ball_x ball buffer d).1.page_changed = ball.page_changed ∧
    (move_ball_x ball buffer d).1.speed = ball.speed := by
  unfold move_ball_x
  simp only []
  split_ifs <;> simp

theorem total_ball_count_set (l : List Channel) (k : Nat) (c : Channel)
    (h : c.ball_count = (l.getD k default).ball_count) :
    total_ball_count (l.set k c) = total_ball_count l := by
  induction l generalizing k with
  | nil => simp
  | cons a t ih =>
    cases k with
    | zero =>
      simp only [List.getD_cons_zero] at h
      simp [total_ball_count, h]
    | succ n =>
      simp only [List.getD_cons_succ] at h
      have := ih n h
      simp only [total_ball_count, List.set_cons_succ, List.map_cons, List.sum_cons] at this ⊢
      rw [this]

theorem register_ball_total (ball : Ball) (buffer : Buffer) (channels : List Channel) :
    total_ball_count (register_ball ball buffer channels).2.2 = total_ball_count channels := by
  unfold register_ball
  simp only []
  split_ifs <;> first | rfl | (apply total_ball_count_set; simp)

theorem register_ball_ball (ball : Ball) (buffer : Buffer) (channels : List Channel) :
    (register_ball ball buffer channels).1 =
      if ball.channel = -1 ∨ ball.registered ≠ 0 then ball else { ball with registered := 1 } := by
  unfold register_ball
  simp only []
  split_ifs <;> rfl

theorem scan_channels_spec (ball : Ball) (channels : List Channel) (i : Int) :
    ((scan_channels ball channels i).1 = ball ∧ (scan_channels ball channels i).2 = channels) ∨
    (∃ j, i ≤ j ∧ (scan_channels ball channels i).1 = { ball with channel := j } ∧
      total_ball_count (scan_channels ball channels i).2 = total_ball_count channels + 1) := by
  induction channels generalizing i with
  | nil => left; simp [scan_channels]
  | cons c rest ih =>
    unfold scan_channels
    split_ifs with hc
    · right
      refine ⟨i, le_refl _, rfl, ?_⟩
      simp [total_ball_count]
      ring
    · rcases ih (i + 1) with ⟨h1, h2⟩ | ⟨j, hj, h1, h2⟩
      · left
        simp [h1, h2]
      · right
        refine ⟨j, by omega, h1, ?_⟩
        simp only [total_ball_count, List.map_cons, List.sum_cons] at h2 ⊢
        rw [h2]; ring

theorem update_ball_count (ball : Ball) (buffer : Buffer) (channels : List Channel)
    (adc : Nat) (h : ball_ok ball) :
    ball_ok (update_ball ball buffer channels adc).1 ∧
    total_ball_count (update_ball ball buffer channels adc).2.2 + reg_flag ball =
      total_ball_count channels + reg_flag (update_ball ball buffer channels adc).1 := by
  unfold update_ball
  by_cases hact : ball.active = 0
  · simp only [hact, if_true]
    rcases h with ⟨hr, hc⟩ | ⟨hr, hc⟩
    · simp only [hc, if_true]
      rw [register_ball_total, register_ball_ball]
      rcases scan_channels_spec ball channels 0 with ⟨h1, h2⟩ | ⟨j, hj, h1, h2⟩
      · rw [h1, h2]
        simp [hc, ball_ok, hr]
      · rw [h1, h2]
        have hj1 : j ≠ -1 := by omega
        simp [hj1, hr, ball_ok, reg_flag]
    · simp only [hc, if_false]
      rw [register_ball_total, register_ball_ball]
      simp [hr, ball_ok, hc]
  · simp only [hact, if_false]
    obtain ⟨y1, y2, -⟩ := move_ball_y_fields
      (if check_collision ball buffer ≠ 0 then move_ball_x ball buffer ((adc &&& 0x01 : Nat) : Int)
        else (ball, buffer)).1
      (if check_collision ball buffer ≠ 0 then move_ball_x ball buffer ((adc &&& 0x01 : Nat) : Int)
        else (ball, buffer)).2
    have hx : (if check_collision ball buffer ≠ 0 then
        move_ball_x ball buffer ((adc &&& 0x01 : Nat) : Int) else (ball, buffer)).1.registered
          = ball.registered ∧
        (if check_collision ball buffer ≠ 0 then
        move_ball_x ball buffer ((adc &&& 0x01 : Nat) : Int) else (ball, buffer)).1.channel
          = ball.channel := by
      split_ifs
      · exact ⟨(move_ball_x_fields _ _ _).1, (move_ball_x_fields _ _ _).2.1⟩
      · exact ⟨rfl, rfl⟩
    simp only [ball_ok, reg_flag, y1, y2, hx.1, hx.2]
    exact ⟨h, trivial⟩

theorem registered_count_set (l : List Ball) (k : Nat) (b : Ball) (hk : k < l.length) :
    (registered_count (l.set k b) : Int) + reg_flag (l.getD k default) =
      (registered_count l : Int) + reg_flag b := by
  induction l generalizing k with
  | nil => simp at hk
  | cons a t ih =>
    cases k with
    | zero =>
      simp only [List.set_cons_zero, List.getD_cons_zero, registered_count, List.countP_cons,
        reg_flag]
      split_ifs <;> simp_all
    | succ n =>
      have := ih n (by simpa using hk)
      simp only [List.set_cons_succ, List.getD_cons_succ, registered_count, List.countP_cons]
        at this ⊢
      push_cast
      linarith

theorem init_balls_loop_getElem? (fuel i : Nat) (balls : List Ball) (j : Nat) :
    (init_balls_loop fuel i balls)[j]? =
      if i ≤ j ∧ j < i + fuel ∧ j < balls.length then some new_ball else balls[j]? := by
  induction fuel generalizing i balls with
  | zero =>
    simp only [init_balls_loop]
    rw [if_neg (by omega)]
  | succ n ih =>
    simp only [init_balls_loop]
    rw [ih, List.length_set, List.getElem?_set]
    by_cases h1 : i = j
    · subst h1
      by_cases h2 : i < balls.length
      · simp [h2]
      · simp [h2]
        omega
    · simp only [h1, if_false]
      by_cases h2 : i + 1 ≤ j ∧ j < i + 1 + n ∧ j < balls.length
      · rw [if_pos h2, if_pos (by omega)]
      · rw [if_neg h2, if_neg (by omega)]

theorem init_balls_all (balls : List Ball) :
    init_balls balls balls.length = List.replicate balls.length new_ball := by
  apply List.ext_getElem?
  intro j
  rw [init_balls, init_balls_loop_getElem?]
  by_cases h : j < balls.length
  · simp [h]
  · rw [if_neg (by omega), List.getElem?_eq_none (by omega),
      List.getElem?_eq_none (by simp only [List.length_replicate]; omega)]

theorem registered_count_replicate (n : Nat) :
    registered_count (List.replicate n new_ball) = 0 := by
  simp [registered_count, List.countP_eq_zero, new_ball]

theorem main_init_balls : main_init.balls = List.replicate TOTAL_BALLS.toNat new_ball := by
  have := init_balls_all (List.replicate TOTAL_BALLS.toNat default)
  simp only [List.length_replicate] at this
  simp only [main_init]
  exact this

theorem TOTAL_BALLS_toNat : TOTAL_BALLS.toNat = 1000 := by decide

theorem dist_body_fields (channel : Channel) (buffer : Buffer) (j : Int) :
    (dist_body channel buffer j).1.start_col = channel.start_col ∧
    (dist_body channel buffer j).1.end_col = channel.end_col ∧
    (dist_body channel buffer j).1.bit_positions = channel.bit_positions ∧
    (dist_body channel buffer j).1.ball_count = channel.ball_count := by
  unfold dist_body
  simp only []
  split_ifs <;> simp

theorem dist_loop_fields (fuel : Nat) (j : Int) (channel : Channel) (buffer : Buffer) :
    (dist_loop fuel j channel buffer).1.start_col = channel.start_col ∧
    (dist_loop fuel j channel buffer).1.end_col = channel.end_col ∧
    (dist_loop fuel j channel buffer).1.bit_positions = channel.bit_positions ∧
    (dist_loop fuel j channel buffer).1.ball_count = channel.ball_count := by
  induction fuel generalizing j channel buffer with
  | zero => simp [dist_loop]
  | succ n ih =>
    unfold dist_loop
    split_ifs
    · obtain ⟨a1, a2, a3, a4⟩ := ih (j + 1) (dist_body channel buffer j).1
        (dist_body channel buffer j).2
      obtain ⟨b1, b2, b3, b4⟩ := dist_body_fields channel buffer j
      simp only []
      exact ⟨a1.trans b1, a2.trans b2, a3.trans b3, a4.trans b4⟩
    · simp

theorem dist_channels_frame (channels : List Channel) (buffer : Buffer) :
    (dist_channels channels buffer).1.map channel_frame = channels.map channel_frame := by
  induction channels generalizing buffer with
  | nil => simp [dist_channels]
  | cons c rest ih =>
    simp only [dist_channels, List.map_cons, ih]
    obtain ⟨a1, a2, a3, a4⟩ := dist_loop_fields c.ball_count.toNat 0 (dist_reset c) buffer
    congr 1
    generalize dist_loop c.ball_count.toNat 0 (dist_reset c) buffer = r at a1 a2 a3 a4
    obtain ⟨⟨s, e, cc, bp, bc⟩, rb⟩ := r
    cases c
    simp_all [channel_frame, dist_reset]

theorem total_ball_count_frame (l1 l2 : List Channel)
    (h : l1.map channel_frame = l2.map channel_frame) :
    total_ball_count l1 = total_ball_count l2 := by
  have : ∀ l : List Channel, total_ball_count l = ((l.map channel_frame).map (fun c => c.ball_count)).sum := by
    intro l
    simp [total_ball_count, channel_frame, Function.comp_def]
  rw [this l1, this l2, h]

theorem show_distribution_total (draw_string : Buffer → Int → Int → String → Buffer)
    (channels : List Channel) (buffer : Buffer) :
    total_ball_count (show_distribution draw_string channels buffer).1 =
      total_ball_count channels :=
  total_ball_count_frame _ _ (dist_channels_frame _ _)

theorem ball_ok_new_ball : ball_ok new_ball := by
  left; decide

theorem init_channels_total : total_ball_count (init_channels buf_zero).1 = 0 := by
  decide

theorem count_inv_fresh (s : Sim) (hb : s.balls = List.replicate 1000 new_ball)
    (hc : s.channels = (init_channels buf_zero).1) : count_inv s := by
  refine ⟨?_, ?_, ?_⟩
  · intro b hb1
    rw [hb] at hb1
    rw [List.eq_of_mem_replicate hb1]
    exact ball_ok_new_ball
  · rw [hb, hc, registered_count_replicate, init_channels_total]
    rfl
  · rw [hb, List.length_replicate]

theorem count_inv_reachable (s : Sim) (h : Reachable s) : count_inv s := by
  induction h with
  | init =>
    apply count_inv_fresh
    · rw [main_init_balls, TOTAL_BALLS_toNat]
    · simp only [main_init, memset_zero]
  | @update s k adc _ hk ih =>
    obtain ⟨h1, h2, h3⟩ := ih
    have hmem : s.balls.getD k default ∈ s.balls := by
      rw [List.getD_eq_getElem _ _ hk]
      exact List.getElem_mem _
    obtain ⟨u1, u2⟩ := update_ball_count (s.balls.getD k default) s.display_buffer s.channels adc
      (h1 _ hmem)
    have hs := registered_count_set s.balls k
      (update_ball (s.balls.getD k default) s.display_buffer s.channels adc).1 hk
    refine ⟨?_, ?_, ?_⟩
    · intro b hb
      simp only [sim_update] at hb
      rcases List.mem_or_eq_of_mem_set hb with hb1 | hb1
      · exact h1 b hb1
      · rw [hb1]; exact u1
    · simp only [sim_update]
      linarith
    · simp only [sim_update, List.length_set, h3]
  | @distribution s d _ ih =>
    obtain ⟨h1, h2, h3⟩ := ih
    refine ⟨h1, ?_, h3⟩
    simp only [sim_distribution]
    rw [show_distribution_total, h2]
  | @reset s _ ih =>
    obtain ⟨h1, h2, h3⟩ := ih
    apply count_inv_fresh
    · simp only [reset_simulation, TOTAL_BALLS_toNat]
      rw [← h3, init_balls_all, h3]
    · simp only [reset_simulation, memset_zero]

theorem update_ball_active_channels (ball : Ball) (buffer : Buffer) (channels : List Channel)
    (adc : Nat) (h : ball.active ≠ 0) :
    (update_ball ball buffer channels adc).2.2 = channels := by
  unfold update_ball
  simp [h]

theorem move_ball_y_motion (ball : Ball) (buffer : Buffer) :
    (move_ball_y ball buffer).1.y =
      (if ball.pattern >>> (8 - ball.speed).toNat > 0 then ball.y + 8 else ball.y) ∧
    (move_ball_y ball buffer).1.active =
      (if (if ball.pattern >>> (8 - ball.speed).toNat > 0 then ball.y + 8 else ball.y)
          ≥ DISPLAY_HEIGHT - 8 then 0 else ball.active) ∧
    (move_ball_y ball buffer).1.pattern =
      (if ball.pattern >>> (8 - ball.speed).toNat > 0
        then (ball.pattern >>> (8 - ball.speed).toNat) % 256
        else (ball.pattern <<< ball.speed.toNat) % 256) := by
  unfold move_ball_y
  simp only []
  split_ifs <;> simp_all

theorem update_ball_new_ball (buffer : Buffer) (channels : List Channel) (adc : Nat) :
    (update_ball new_ball buffer channels adc).1.registered = 0 ∧
    (update_ball new_ball buffer channels adc).1.active = 1 := by
  unfold update_ball
  have h1 : ¬ (new_ball.active = 0) := by decide
  simp only [h1, if_false]
  generalize hb : (if check_collision new_ball buffer ≠ 0 then
      move_ball_x new_ball buffer ((adc &&& 0x01 : Nat) : Int) else (new_ball, buffer)) = r
  have hr : r.1.registered = 0 ∧ r.1.active = 1 ∧ r.1.y = 0 ∧ r.1.pattern = 3 ∧ r.1.speed = 1 := by
    rw [← hb]
    split_ifs
    · obtain ⟨a1, a2, a3, a4, a5, a6, a7⟩ :=
        move_ball_x_fields new_ball buffer ((adc &&& 0x01 : Nat) : Int)
      rw [a1, a3, a4, a5, a7]
      decide
    · exact ⟨rfl, rfl, rfl, rfl, rfl⟩
  obtain ⟨r1, r2, r3, r4, r5⟩ := hr
  obtain ⟨m1, m2, m3⟩ := move_ball_y_motion r.1 r.2
  rw [(move_ball_y_fields r.1 r.2).1, m2, r1, r2, r3, r4, r5]
  decide

theorem main_run_inv (draw_string : Buffer → Int → Int → String → Buffer)
    (gpio : Nat → Int × Int) (adc : Nat → Nat) (n : Nat) (hn : n ≤ 1000) :
    single_pass_inv n (main_run draw_string gpio adc n) := by
  induction n with
  | zero =>
    refine ⟨rfl, ?_, ?_, ?_, ?_⟩
    · simp only [main_run]; rw [main_init_balls, TOTAL_BALLS_toNat, List.length_replicate]
    · intro j _ hj
      simp only [main_run]
      rw [main_init_balls, TOTAL_BALLS_toNat, List.getElem?_replicate, if_pos hj]
    · intro b hb
      simp only [main_run] at hb
      rw [main_init_balls] at hb
      rw [List.eq_of_mem_replicate hb]
      decide
    · simp only [main_run, main_init, memset_zero]
  | succ n ih =>
    obtain ⟨h1, h2, h3, h4, h5⟩ := ih (by omega)
    simp only [main_run]
    generalize main_run draw_string gpio adc n = s at h1 h2 h3 h4 h5
    have hk : (Int.tmod s.current_ball TOTAL_BALLS).toNat = n := by
      rw [h1, Int.tmod_eq_emod (by omega) (by decide)]
      simp only [TOTAL_BALLS]
      omega
    have hball : s.balls.getD n default = new_ball := by
      rw [List.getD_eq_getElem?_getD, h3 n (le_refl _) (by omega)]
      rfl
    have hlt : ¬ (s.current_ball ≥ TOTAL_BALLS) := by
      rw [h1]; simp only [TOTAL_BALLS]; omega
    unfold main_step
    simp only [hlt, if_false, hk, hball]
    have hreg : ¬ (new_ball.registered ≠ 0) := by decide
    simp only [hreg, if_false]
    obtain ⟨u1, u2⟩ := update_ball_new_ball s.display_buffer s.channels (adc n)
    refine ⟨?_, ?_, ?_, ?_, ?_⟩
    · simp only [h1]; push_cast; rfl
    · simp only [List.length_set, h2]
    · intro j hj1 hj2
      simp only []
      rw [List.getElem?_set_ne (by omega)]
      exact h3 j (by omega) hj2
    · intro b hb
      simp only [] at hb
      rcases List.mem_or_eq_of_mem_set hb with hb1 | hb1
      · exact h4 b hb1
      · rw [hb1]; exact ⟨u1, u2⟩
    · simp only []
      rw [update_ball_active_channels _ _ _ _ (by decide), h5]

theorem move_ball_x_right (ball : Ball) (buffer : Buffer) :
    (move_ball_x ball buffer 0).1.x_left = ball.x_left + 2 ∧
    (move_ball_x ball buffer 0).1.x_right = ball.x_left + 2 + 1 := by
  unfold move_ball_x
  simp

theorem register_ball_head (ball : Ball) (buffer : Buffer) (c : Channel) (rest : List Channel)
    (h : ball.channel = -1 ∨ 1 ≤ ball.channel) :
    ∃ rest2, (register_ball ball buffer (c :: rest)).2.2 = c :: rest2 := by
  unfold register_ball
  split_ifs with h1
  · exact ⟨rest, rfl⟩
  · have h2 : 1 ≤ ball.channel := by
      rcases h with h | h
      · exact absurd (Or.inl h) h1
      · exact h
    obtain ⟨n, hn⟩ : ∃ n, ball.channel.toNat = n + 1 := ⟨ball.channel.toNat - 1, by omega⟩
    simp only [hn, List.set_cons_succ]
    exact ⟨_, rfl⟩

theorem update_ball_right (ball : Ball) (buffer : Buffer) (channels : List Channel) (adc : Nat)
    (hadc : adc &&& 0x01 = 0) (hb : ball_right ball) (hc : head_empty channels) :
    ball_right (update_ball ball buffer channels adc).1 ∧
    head_empty (update_ball ball buffer channels adc).2.2 := by
  obtain ⟨b1, b2, b3⟩ := hb
  obtain ⟨c, rest, rfl, c1, c2, c3⟩ := hc
  by_cases hact : ball.active = 0
  · unfold update_ball
    simp only [hact, if_true]
    have hscan : ∃ b2 rest2, (if ball.channel = -1 then scan_channels ball (c :: rest) 0
        else (ball, c :: rest)) = (b2, c :: rest2) ∧ b2.x_left = ball.x_left ∧
        b2.x_right = ball.x_right ∧ (b2.channel = -1 ∨ 1 ≤ b2.channel) := by
      split_ifs with hch
      · have hno : ¬ (ball.x_left ≥ c.start_col ∧ ball.x_right ≤ c.end_col) := by
          rw [c2]; omega
        simp only [scan_channels, hno, if_false]
        rcases scan_channels_spec ball rest (0 + 1) with ⟨h1, h2⟩ | ⟨j, hj, h1, h2⟩
        · exact ⟨_, _, rfl, by rw [h1], by rw [h1], by rw [h1]; exact b3⟩
        · exact ⟨_, _, rfl, by rw [h1], by rw [h1], by rw [h1]; right; simpa using hj⟩
      · exact ⟨_, _, rfl, rfl, rfl, b3⟩
    obtain ⟨q, rest2, hq, q1, q2, q3⟩ := hscan
    rw [hq]
    simp only []
    obtain ⟨rest3, h3⟩ := register_ball_head q buffer c rest2 q3
    refine ⟨?_, ⟨c, rest3, h3, c1, c2, c3⟩⟩
    rw [register_ball_ball]
    split_ifs
    · exact ⟨by omega, by omega, q3⟩
    · exact ⟨by simp only []; omega, by simp only []; omega, q3⟩
  · rw [update_ball_active_channels _ _ _ _ hact]
    refine ⟨?_, ⟨c, rest, rfl, c1, c2, c3⟩⟩
    unfold update_ball
    simp only [hact, if_false, hadc]
    obtain ⟨y1, y2, y3, y4, -⟩ := move_ball_y_fields
      (if check_collision ball buffer ≠ 0 then move_ball_x ball buffer ((0 : Nat) : Int)
        else (ball, buffer)).1
      (if check_collision ball buffer ≠ 0 then move_ball_x ball buffer ((0 : Nat) : Int)
        else (ball, buffer)).2
    unfold ball_right
    rw [y2, y3, y4]
    split_ifs
    · obtain ⟨x1, x2⟩ := move_ball_x_right ball buffer
      have x3 := (move_ball_x_fields ball buffer 0).2.1
      simp only [Nat.cast_zero]
      rw [x1, x2, x3]
      exact ⟨by omega, by omega, b3⟩
    · exact ⟨b1, b2, b3⟩

theorem init_channels_value :
    (init_channels buf_zero).1 =
      [ ⟨36, 44, 44, [0, 0, 0, 0, 0, 0, 0, 0], 0⟩, ⟨44, 52, 52, [0, 0, 0, 0, 0, 0, 0, 0], 0⟩,
        ⟨52, 60, 60, [0, 0, 0, 0, 0, 0, 0, 0], 0⟩, ⟨60, 68, 68, [0, 0, 0, 0, 0, 0, 0, 0], 0⟩,
        ⟨68, 76, 68, [0, 0, 0, 0, 0, 0, 0, 0], 0⟩, ⟨76, 84, 76, [0, 0, 0, 0, 0, 0, 0, 0], 0⟩,
        ⟨84, 92, 84, [0, 0, 0, 0, 0, 0, 0, 0], 0⟩, ⟨92, 100, 92, [0, 0, 0, 0, 0, 0, 0, 0], 0⟩ ] := by
  decide

theorem init_channels_loop_fst (fuel : Nat) (i : Int) (channels : List Channel)
    (b1 b2 : Buffer) :
    (init_channels_loop fuel i channels b1).1 = (init_channels_loop fuel i channels b2).1 := by
  induction fuel generalizing i channels b1 b2 with
  | zero => rfl
  | succ n ih =>
    simp only [init_channels_loop]
    exact ih _ _ _ _

theorem init_channels_fst (buffer : Buffer) :
    (init_channels buffer).1 = (init_channels buf_zero).1 :=
  init_channels_loop_fst _ _ _ _ _

theorem head_empty_init : head_empty (init_channels buf_zero).1 := by
  rw [init_channels_value]
  exact ⟨_, _, rfl, rfl, rfl, rfl⟩

theorem right_inv_fresh (s : Sim) (hb : s.balls = List.replicate 1000 new_ball)
    (hc : s.channels = (init_channels buf_zero).1) : right_inv s := by
  refine ⟨?_, ?_, ?_⟩
  · intro b hb1
    rw [hb] at hb1
    rw [List.eq_of_mem_replicate hb1]
    exact ⟨by decide, by decide, Or.inl (by decide)⟩
  · rw [hc]; exact head_empty_init
  · rw [hb, List.length_replicate]

theorem right_inv_reachable (s : Sim) (h : ReachableFalse s) : right_inv s := by
  induction h with
  | init =>
    apply right_inv_fresh
    · rw [main_init_balls, TOTAL_BALLS_toNat]
    · simp only [main_init, memset_zero]
  | @update s k adc _ hk hadc ih =>
    obtain ⟨h1, h2, h3⟩ := ih
    have hmem : s.balls.getD k default ∈ s.balls := by
      rw [List.getD_eq_getElem _ _ hk]
      exact List.getElem_mem _
    obtain ⟨u1, u2⟩ := update_ball_right (s.balls.getD k default) s.display_buffer s.channels
      adc hadc (h1 _ hmem) h2
    refine ⟨?_, u2, ?_⟩
    · intro b hb
      simp only [sim_update] at hb
      rcases List.mem_or_eq_of_mem_set hb with hb1 | hb1
      · exact h1 b hb1
      · rw [hb1]; exact u1
    · simp only [sim_update, List.length_set, h3]
  | @distribution s d _ ih =>
    obtain ⟨h1, ⟨c, rest, hc, c1, c2, c3⟩, h3⟩ := ih
    refine ⟨h1, ?_, h3⟩
    simp only [sim_distribution, show_distribution, hc, dist_channels]
    obtain ⟨a1, a2, -, a4⟩ := dist_loop_fields c.ball_count.toNat 0 (dist_reset c)
      (draw_counts d (c :: rest) 0 (memset_zero s.display_buffer))
    exact ⟨_, _, rfl, a1.trans c1, a2.trans c2, a4.trans c3⟩
  | @reset s _ ih =>
    obtain ⟨h1, h2, h3⟩ := ih
    apply right_inv_fresh
    · simp only [reset_simulation, TOTAL_BALLS_toNat]
      rw [← h3, init_balls_all, h3]
    · simp only [reset_simulation]
      exact init_channels_fst _

theorem scan_channels_fields (ball : Ball) (channels : List Channel) (i : Int) :
    (scan_channels ball channels i).1.y = ball.y ∧
    (scan_channels ball channels i).1.active = ball.active ∧
    (scan_channels ball channels i).1.registered = ball.registered ∧
    (scan_channels ball channels i).1.x_left = ball.x_left ∧
    (scan_channels ball channels i).1.x_right = ball.x_right := by
  rcases scan_channels_spec ball channels i with ⟨h1, -⟩ | ⟨j, -, h1, -⟩ <;> rw [h1] <;> simp

theorem register_ball_fields (ball : Ball) (buffer : Buffer) (channels : List Channel) :
    (register_ball ball buffer channels).1.y = ball.y ∧
    (register_ball ball buffer channels).1.active = ball.active ∧
    (register_ball ball buffer channels).1.channel = ball.channel ∧
    (register_ball ball buffer channels).1.x_left = ball.x_left ∧
    (register_ball ball buffer channels).1.x_right = ball.x_right := by
  rw [register_ball_ball]
  split_ifs <;> simp

theorem update_ball_y (ball : Ball) (buffer : Buffer) (channels : List Channel) (adc : Nat) :
    (ball.active = 0 →
      (update_ball ball buffer channels adc).1.y = ball.y ∧
      (update_ball ball buffer channels adc).1.active = 0) ∧
    (ball.active ≠ 0 →
      ((update_ball ball buffer channels adc).1.y = ball.y ∨
        (update_ball ball buffer channels adc).1.y = ball.y + 8) ∧
      (update_ball ball buffer channels adc).1.active =
        if (update_ball ball buffer channels adc).1.y ≥ DISPLAY_HEIGHT - 8 then 0
        else ball.active) := by
  constructor
  · intro hact
    unfold update_ball
    simp only [hact, if_true]
    obtain ⟨r1, r2, -⟩ := register_ball_fields
      (if ball.channel = -1 then scan_channels ball channels 0 else (ball, channels)).1 buffer
      (if ball.channel = -1 then scan_channels ball channels 0 else (ball, channels)).2
    rw [r1, r2]
    split_ifs
    · obtain ⟨s1, s2, -⟩ := scan_channels_fields ball channels 0
      rw [s1, s2]
      exact ⟨rfl, hact⟩
    · exact ⟨rfl, hact⟩
  · intro hact
    unfold update_ball
    simp only [hact, if_false]
    generalize hr : (if check_collision ball buffer ≠ 0 then
      move_ball_x ball buffer ((adc &&& 0x01 : Nat) : Int) else (ball, buffer)) = r
    have hy : r.1.y = ball.y ∧ r.1.active = ball.active := by
      rw [← hr]
      split_ifs
      · exact ⟨(move_ball_x_fields _ _ _).2.2.1, (move_ball_x_fields _ _ _).2.2.2.1⟩
      · exact ⟨rfl, rfl⟩
    obtain ⟨m1, m2, -⟩ := move_ball_y_motion r.1 r.2
    rw [m2, m1, hy.1, hy.2]
    refine ⟨?_, rfl⟩
    split_ifs
    · right; rfl
    · left; rfl

theorem fall_inv_reachable (b : Ball) (h : BallReachable b) : fall_inv b := by
  induction h with
  | init => exact ⟨by decide, by decide, by decide, by decide⟩
  | @update b buffer channels adc _ ih =>
    obtain ⟨i1, i2, i3, i4⟩ := ih
    obtain ⟨u1, u2⟩ := update_ball_y b buffer channels adc
    unfold fall_inv
    by_cases hact : b.active = 0
    · obtain ⟨v1, v2⟩ := u1 hact
      refine ⟨by rw [v1]; exact i1, by rw [v1]; exact i2, fun _ => by rw [v1]; exact i3 hact,
        fun hne => absurd v2 hne⟩
    · obtain ⟨v1, v2⟩ := u2 hact
      have hlt := i4 hact
      simp only [DISPLAY_HEIGHT] at v2
      rcases v1 with v1 | v1
      · rw [v1] at v2 ⊢
        rw [if_neg (by omega)] at v2
        exact ⟨i1, i2, fun h0 => absurd (v2 ▸ h0) hact, fun _ => hlt⟩
      · rw [v1] at v2 ⊢
        refine ⟨by omega, by omega, fun _ => by omega, fun hne => ?_⟩
        by_contra hge
        rw [if_pos (by omega)] at v2
        exact hne v2

theorem scan_channels_first (ball : Ball) (channels : List Channel) (i : Int) (k : Nat)
    (hk : k < channels.length) (hin : in_channel ball (channels.getD k default))
    (hfirst : ∀ j, j < k → ¬ in_channel ball (channels.getD j default)) :
    (scan_channels ball channels i).1.channel = i + k := by
  induction channels generalizing i k with
  | nil => simp at hk
  | cons c rest ih =>
    unfold scan_channels
    cases k with
    | zero =>
      simp only [List.getD_cons_zero] at hin
      simp only [in_channel] at hin
      simp [hin]
    | succ n =>
      have h0 := hfirst 0 (by omega)
      simp only [List.getD_cons_zero, in_channel] at h0
      simp only [h0, if_false]
      rw [ih (i + 1) n (by simpa using hk) (by simpa using hin)
        (fun j hj => by simpa using hfirst (j + 1) (by omega))]
      push_cast
      ring

theorem init_channels_cols (j : Nat) (hj : j < 8) :
    ((init_channels buf_zero).1.getD j default).start_col = 36 + 8 * (j : Int) ∧
    ((init_channels buf_zero).1.getD j default).end_col = 44 + 8 * (j : Int) := by
  rw [init_channels_value]
  interval_cases j <;> decide

theorem init_channels_length : (init_channels buf_zero).1.length = 8 := by
  rw [init_channels_value]
  rfl

theorem main_init_length : main_init.balls.length = 1000 := by
  rw [main_init_balls, List.length_replicate, TOTAL_BALLS_toNat]

theorem channel_frame_eq (c1 c2 : Channel) (h : channel_frame c1 = channel_frame c2) :
    dist_reset c1 = dist_reset c2 ∧ c1.ball_count = c2.ball_count := by
  cases c1
  cases c2
  simp only [channel_frame, Channel.mk.injEq] at h
  obtain ⟨h1, h2, -, h4, h5⟩ := h
  simp [dist_reset, h1, h2, h4, h5]

theorem dist_channels_congr (l1 l2 : List Channel) (buffer : Buffer)
    (h : l1.map channel_frame = l2.map channel_frame) :
    (dist_channels l1 buffer).2 = (dist_channels l2 buffer).2 := by
  induction l1 generalizing l2 buffer with
  | nil =>
    cases l2 with
    | nil => rfl
    | cons c rest => simp at h
  | cons c1 r1 ih =>
    cases l2 with
    | nil => simp at h
    | cons c2 r2 =>
      simp only [List.map_cons, List.cons.injEq] at h
      obtain ⟨e1, e2⟩ := channel_frame_eq c1 c2 h.1
      simp only [dist_channels, e1, e2]
      exact ih r2 _ h.2

theorem draw_counts_congr (draw_string : Buffer → Int → Int → String → Buffer)
    (l1 l2 : List Channel) (x : Int) (buffer : Buffer)
    (h : l1.map channel_frame = l2.map channel_frame) :
    draw_counts draw_string l1 x buffer = draw_counts draw_string l2 x buffer := by
  induction l1 generalizing l2 x buffer with
  | nil =>
    cases l2 with
    | nil => rfl
    | cons c rest => simp at h
  | cons c1 r1 ih =>
    cases l2 with
    | nil => simp at h
    | cons c2 r2 =>
      simp only [List.map_cons, List.cons.injEq] at h
      obtain ⟨-, e2⟩ := channel_frame_eq c1 c2 h.1
      simp only [draw_counts, e2]
      exact ih r2 _ _ h.2

theorem show_distribution_frame (draw_string : Buffer → Int → Int → String → Buffer)
    (channels : List Channel) (buffer : Buffer) :
    (show_distribution draw_string channels buffer).1.map channel_frame =
      channels.map channel_frame :=
  dist_channels_frame _ _

theorem channel_frame_getD (l1 l2 : List Channel)
    (h : l1.map channel_frame = l2.map channel_frame) (i : Nat) :
    channel_frame (l1.getD i default) = channel_frame (l2.getD i default) := by
  have h1 : ∀ l : List Channel, channel_frame (l.getD i default) =
      (l.map channel_frame).getD i (channel_frame default) := by
    intro l
    rw [List.getD_eq_getElem?_getD, List.getD_eq_getElem?_getD, List.getElem?_map]
    cases l[i]? <;> rfl
  rw [h1, h1, h]

theorem dist_loop_succ (a : Nat) (j : Int) (channel : Channel) (buffer : Buffer)
    (h : j + a < channel.ball_count) :
    dist_loop (a + 1) j channel buffer =
      dist_body (dist_loop a j channel buffer).1 (dist_loop a j channel buffer).2 (j + a) := by
  induction a generalizing j channel buffer with
  | zero =>
    have h0 : j < channel.ball_count := by simpa using h
    simp [dist_loop, h0]
  | succ n ih =>
    have h0 : j < channel.ball_count := by push_cast at h; omega
    have hb := (dist_body_fields channel buffer j).2.2.2
    rw [dist_loop]
    simp only [h0, if_true]
    rw [ih (j + 1) _ _ (by rw [hb]; push_cast at h ⊢; omega)]
    conv_rhs => rw [dist_loop]
    simp only [h0, if_true]
    push_cast
    rw [show j + 1 + (n : Int) = j + ((n : Int) + 1) by ring]

theorem dist_body_current_col (channel : Channel) (buffer : Buffer) (j : Int) :
    (dist_body channel buffer j).1.current_col =
      if channel.start_col > Int.tdiv DISPLAY_WIDTH 2 then
        (if channel.current_col + 1 ≥ channel.end_col then channel.start_col + 1
          else channel.current_col + 1)
      else
        (if channel.current_col - 1 ≤ channel.start_col then channel.end_col - 1
          else channel.current_col - 1) := by
  unfold dist_body
  simp only []
  split_ifs <;> rfl

theorem register_ball_channel (ball : Ball) (buffer : Buffer) (channels : List Channel)
    (i : Nat) (hi : i < channels.length) (hc : ball.channel = (i : Int))
    (hr : ball.registered = 0) :
    (register_ball ball buffer channels).2.2.length = channels.length ∧
    ((register_ball ball buffer channels).2.2.getD i default).start_col =
      (channels.getD i default).start_col ∧
    ((register_ball ball buffer channels).2.2.getD i default).end_col =
      (channels.getD i default).end_col ∧
    ((register_ball ball buffer channels).2.2.getD i default).current_col =
      if (channels.getD i default).start_col > Int.tdiv DISPLAY_WIDTH 2 then
        (if (channels.getD i default).current_col + 1 ≥ (channels.getD i default).end_col
          then (channels.getD i default).start_col + 1
          else (channels.getD i default).current_col + 1)
      else
        (if (channels.getD i default).current_col - 1 ≤ (channels.getD i default).start_col
          then (channels.getD i default).end_col - 1
          else (channels.getD i default).current_col - 1) := by
  unfold register_ball
  have h1 : ¬ (ball.channel = -1 ∨ ball.registered ≠ 0) := by
    rw [hc, hr]; omega
  have h2 : ball.channel.toNat = i := by rw [hc]; simp
  simp only [h1, if_false, h2, List.length_set, true_and]
  rw [List.getD_eq_getElem?_getD, List.getElem?_set_self hi]
  simp only [Option.getD_some]
  split_ifs <;> simp

theorem init_channels_right_half (i : Nat) (h4 : 4 ≤ i) (h8 : i < 8) :
    ((init_channels buf_zero).1.getD i default).start_col > Int.tdiv DISPLAY_WIDTH 2 ∧
    ((init_channels buf_zero).1.getD i default).current_col =
      ((init_channels buf_zero).1.getD i default).start_col ∧
    register_marker ((init_channels buf_zero).1.getD i default) =
      ⟨((init_channels buf_zero).1.getD i default).start_col, 7, 0x80⟩ := by
  rw [init_channels_value]
  interval_cases i <;> decide

theorem markers_columns_aux (i : Nat) (h4 : 4 ≤ i) (h8 : i < 8) (n : Int) (j : Nat)
    (hj : (j : Int) ≤ n) :
    (register_times i j buf_zero (init_channels buf_zero).1).2.length = 8 ∧
    ((register_times i j buf_zero (init_channels buf_zero).1).2.getD i default).start_col =
      ((init_channels buf_zero).1.getD i default).start_col ∧
    ((register_times i j buf_zero (init_channels buf_zero).1).2.getD i default).end_col =
      ((init_channels buf_zero).1.getD i default).end_col ∧
    (dist_loop j 0
      (dist_reset { (init_channels buf_zero).1.getD i default with ball_count := n })
      buf_zero).1.start_col = ((init_channels buf_zero).1.getD i default).start_col ∧
    (dist_loop j 0
      (dist_reset { (init_channels buf_zero).1.getD i default with ball_count := n })
      buf_zero).1.end_col = ((init_channels buf_zero).1.getD i default).end_col ∧
    ((register_times i j buf_zero (init_channels buf_zero).1).2.getD i default).current_col =
      (dist_loop j 0
        (dist_reset { (init_channels buf_zero).1.getD i default with ball_count := n })
        buf_zero).1.current_col := by
  obtain ⟨g1, g2, -⟩ := init_channels_right_half i h4 h8
  induction j with
  | zero =>
    refine ⟨init_channels_length, rfl, rfl, rfl, rfl, ?_⟩
    simp only [register_times, dist_loop, dist_reset, g1, if_true]
    exact g2
  | succ k ih =>
    obtain ⟨a1, a2, a3, a4, a5, a6⟩ := ih (by push_cast at hj; omega)
    have hlt : (0 : Int) + (k : Int) <
        (dist_reset { (init_channels buf_zero).1.getD i default with ball_count := n }).ball_count := by
      simp only [dist_reset]
      push_cast at hj
      omega
    rw [dist_loop_succ k 0 _ _ hlt]
    obtain ⟨b1, b2, -, -⟩ := dist_body_fields
      (dist_loop k 0
        (dist_reset { (init_channels buf_zero).1.getD i default with ball_count := n })
        buf_zero).1
      (dist_loop k 0
        (dist_reset { (init_channels buf_zero).1.getD i default with ball_count := n })
        buf_zero).2 (0 + (k : Int))
    obtain ⟨r1, r2, r3, r4⟩ := register_ball_channel (landed_ball i)
      (register_times i k buf_zero (init_channels buf_zero).1).1
      (register_times i k buf_zero (init_channels buf_zero).1).2 i (by rw [a1]; exact h8)
      rfl rfl
    simp only [register_times]
    refine ⟨r1.trans a1, r2.trans a2, r3.trans a3, b1.trans a4, b2.trans a5, ?_⟩
    rw [r4, dist_body_current_col, a2, a3, a4, a5, a6]

set_option maxRecDepth 100000 in
set_option maxHeartbeats 4000000 in
theorem post_init_buffer_lit :
    (draw_pins (init_channels buf_zero).2).enum.filter (fun p => p.2 ≠ 0) =
      [(192, 1), (316, 1), (324, 1), (440, 1), (448, 1), (456, 1), (564, 1), (572, 1),
       (580, 1), (588, 1), (688, 1), (696, 1), (704, 1), (712, 1), (720, 1), (812, 1),
       (820, 1), (828, 1), (836, 1), (844, 1), (852, 1), (932, 255), (940, 255),
       (948, 255), (956, 255), (964, 255), (972, 255), (980, 255), (988, 255)] := by
  rfl

theorem dist_loop_fst (fuel : Nat) (j : Int) (channel : Channel) (b1 b2 : Buffer) :
    (dist_loop fuel j channel b1).1 = (dist_loop fuel j channel b2).1 := by
  induction fuel generalizing j channel b1 b2 with
  | zero => rfl
  | succ n ih =>
    simp only [dist_loop]
    split_ifs
    · have : (dist_body channel b1 j).1 = (dist_body channel b2 j).1 := by
        simp only [dist_body]
      rw [this]
      exact ih _ _ _ _
    · rfl

theorem dist_loop_write (a : Nat) (channel : Channel) (buffer : Buffer)
    (h : (a : Int) < channel.ball_count) :
    (dist_loop (a + 1) 0 channel buffer).2 =
      buf_or (dist_loop a 0 channel buffer).2
        ((dist_marker (dist_loop a 0 channel buffer).1 a).col +
          (dist_marker (dist_loop a 0 channel buffer).1 a).page * DISPLAY_WIDTH)
        (dist_marker (dist_loop a 0 channel buffer).1 a).mask := by
  rw [dist_loop_succ a 0 channel buffer (by omega)]
  simp only [dist_body, zero_add]

theorem register_times_write (i n : Nat) (buffer : Buffer) (channels : List Channel) :
    (register_times i (n + 1) buffer channels).1 =
      buf_or (register_times i n buffer channels).1
        ((register_marker ((register_times i n buffer channels).2.getD i default)).col +
          (register_marker ((register_times i n buffer channels).2.getD i default)).page *
            DISPLAY_WIDTH)
        (register_marker ((register_times i n buffer channels).2.getD i default)).mask := by
  simp only [register_times, register_ball]
  have h1 : ¬ ((landed_ball i).channel = -1 ∨ (landed_ball i).registered ≠ 0) := by
    simp only [landed_ball, new_ball]
    omega
  have h2 : (landed_ball i).channel.toNat = i := by simp [landed_ball]
  simp only [h1, if_false, h2]

theorem update_ball_x_left (ball : Ball) (buffer : Buffer) (channels : List Channel)
    (adc : Nat) (ha : ball.active ≠ 0) (hcol : check_collision ball buffer ≠ 0) :
    (update_ball ball buffer channels adc).1.x_left =
      (move_ball_x ball buffer ((adc &&& 0x01 : Nat) : Int)).1.x_left := by
  unfold update_ball
  simp only [ha, if_false, hcol, ne_eq, not_false_eq_true, if_true]
  exact (move_ball_y_fields _ _).2.2.1

theorem update_ball_fall (ball : Ball) (buffer : Buffer) (channels : List Channel) (adc : Nat)
    (ha : ball.active ≠ 0) (hs : ball.speed = 1) :
    (update_ball ball buffer channels adc).1.speed = 1 ∧
    ((update_ball ball buffer channels adc).1.y, (update_ball ball buffer channels adc).1.pattern)
      = fall_step (ball.y, ball.pattern) ∧
    (update_ball ball buffer channels adc).1.active =
      if (fall_step (ball.y, ball.pattern)).1 ≥ 56 then 0 else ball.active := by
  unfold update_ball
  simp only [ha, if_false]
  generalize hr : (if check_collision ball buffer ≠ 0 then
    move_ball_x ball buffer ((adc &&& 0x01 : Nat) : Int) else (ball, buffer)) = r
  have hx : r.1.y = ball.y ∧ r.1.active = ball.active ∧ r.1.pattern = ball.pattern ∧
      r.1.speed = 1 := by
    rw [← hr]
    split_ifs
    · obtain ⟨-, -, a3, a4, a5, -, a7⟩ := move_ball_x_fields ball buffer
        ((adc &&& 0x01 : Nat) : Int)
      exact ⟨a3, a4, a5, a7.trans hs⟩
    · exact ⟨rfl, rfl, rfl, hs⟩
  obtain ⟨x1, x2, x3, x4⟩ := hx
  obtain ⟨m1, m2, m3⟩ := move_ball_y_motion r.1 r.2
  obtain ⟨-, -, -, -, f5⟩ := move_ball_y_fields r.1 r.2
  rw [f5, m1, m2, m3, x1, x2, x3, x4]
  simp only [fall_step, DISPLAY_HEIGHT]
  have e7 : ((8 : Int) - 1).toNat = 7 := by decide
  have e1 : (1 : Int).toNat = 1 := by decide
  simp only [e7, e1]
  refine ⟨trivial, ?_, ?_⟩
  · split_ifs <;> rfl
  · split_ifs <;> first | rfl | omega

set_option maxRecDepth 100000 in
theorem fall_track_active : ∀ n : Nat, n < 55 → (fall_track n).1 < 56 := by
  decide

set_option maxRecDepth 100000 in
theorem fall_track_done : (fall_track 55).1 = 56 := by
  decide

theorem ball_after_track (buffers : Nat → Buffer) (chans : Nat → List Channel)
    (adcs : Nat → Nat) (n : Nat) (hn : n ≤ 55) :
    (ball_after buffers chans adcs n).speed = 1 ∧
    ((ball_after buffers chans adcs n).y, (ball_after buffers chans adcs n).pattern)
      = fall_track n ∧
    (ball_after buffers chans adcs n).active = if (fall_track n).1 ≥ 56 then 0 else 1 := by
  induction n with
  | zero => exact ⟨rfl, rfl, rfl⟩
  | succ k ih =>
    obtain ⟨i1, i2, i3⟩ := ih (by omega)
    have hlt := fall_track_active k (by omega)
    rw [if_neg (by omega)] at i3
    obtain ⟨u1, u2, u3⟩ := update_ball_fall (ball_after buffers chans adcs k) (buffers k)
      (chans k) (adcs k) (by rw [i3]; decide) i1
    simp only [ball_after, fall_track]
    rw [i2] at u2 u3
    rw [i3] at u3
    exact ⟨u1, u2, u3⟩

theorem scan_channels_found (ball : Ball) (channels : List Channel) (off : Int) (i : Nat)
    (hi : i < channels.length) (hin : in_channel ball (channels.getD i default))
    (hfirst : ∀ j, j < i → ¬ in_channel ball (channels.getD j default)) :
    scan_channels ball channels off =
      ({ ball with channel := off + i },
       channels.set i { channels.getD i default with
         ball_count := (channels.getD i default).ball_count + 1 }) := by
  induction channels generalizing off i with
  | nil => simp at hi
  | cons c rest ih =>
    unfold scan_channels
    cases i with
    | zero =>
      simp only [List.getD_cons_zero] at hin ⊢
      simp only [in_channel] at hin
      simp [hin]
    | succ n =>
      have h0 := hfirst 0 (by omega)
      simp only [List.getD_cons_zero, in_channel] at h0
      simp only [h0, if_false]
      rw [ih (off + 1) n (by simpa using hi) (by simpa using hin)
        (fun j hj => by simpa using hfirst (j + 1) (by omega))]
      simp only [List.getD_cons_succ, List.set_cons_succ]
      congr 2
      push_cast
      ring

theorem scan_channels_none (ball : Ball) (channels : List Channel) (off : Int)
    (h : ∀ j, j < channels.length → ¬ in_channel ball (channels.getD j default)) :
    scan_channels ball channels off = (ball, channels) := by
  induction channels generalizing off with
  | nil => rfl
  | cons c rest ih =>
    unfold scan_channels
    have h0 := h 0 (by simp)
    simp only [List.getD_cons_zero, in_channel] at h0
    simp only [h0, if_false]
    rw [ih (off + 1) (fun j hj => by simpa using h (j + 1) (by simpa using hj))]

theorem register_ball_landing (ball : Ball) (buffer : Buffer) (channels : List Channel)
    (i : Nat) (hc : ball.channel = (i : Int)) (hr : ball.registered = 0) :
    (register_ball ball buffer channels).1 = { ball with registered := 1 } ∧
    (∃ k : Nat, k ≤ 7 ∧ (register_ball ball buffer channels).2.1 =
      buf_or buffer ((channels.getD i default).current_col + 7 * DISPLAY_WIDTH) (0x80 >>> k)) ∧
    (∃ c : Channel, c.ball_count = (channels.getD i default).ball_count ∧
      (register_ball ball buffer channels).2.2 = channels.set i c) := by
  unfold register_ball
  have h1 : ¬ (ball.channel = -1 ∨ ball.registered ≠ 0) := by
    rw [hc, hr]; omega
  have h2 : ball.channel.toNat = i := by rw [hc]; simp
  simp only [h1, if_false, h2, true_and]
  constructor
  · refine ⟨(bits_get (channels.getD i default).bit_positions
      ((channels.getD i default).current_col - (channels.getD i default).start_col)
        % 8).toNat, by omega, ?_⟩
    simp only [register_marker]
    rfl
  · refine ⟨_, ?_, rfl⟩
    split_ifs <;> rfl

theorem register_ball_index_after (ball : Ball) (buffer : Buffer) (channels : List Channel)
    (i : Nat) (hi : i < channels.length) (hc : ball.channel = (i : Int))
    (hr : ball.registered = 0)
    (hw : (channels.getD i default).end_col = (channels.getD i default).start_col + 8)
    (h1 : (channels.getD i default).start_col ≤ (channels.getD i default).current_col)
    (h2 : (channels.getD i default).current_col ≤ (channels.getD i default).end_col) :
    0 < ((register_ball ball buffer channels).2.2.getD i default).current_col -
      ((register_ball ball buffer channels).2.2.getD i default).start_col ∧
    ((register_ball ball buffer channels).2.2.getD i default).current_col -
      ((register_ball ball buffer channels).2.2.getD i default).start_col < 8 := by
  obtain ⟨-, r2, -, r4⟩ := register_ball_channel ball buffer channels i hi hc hr
  rw [r4, r2]
  split_ifs <;> omega

theorem dist_page_range (channel : Channel) (j : Nat) (hj : j < 568) :
    0 ≤ (dist_marker channel j).page ∧ (dist_marker channel j).page ≤ 7 := by
  simp only [dist_marker, DISPLAY_HEIGHT]
  have e1 : Int.tdiv (j : Int) 8 = (j : Int) / 8 :=
    Int.tdiv_eq_ediv (by omega) (by decide)
  rw [e1]
  by_cases h : j < 512
  · rw [Int.tdiv_eq_ediv (by omega) (by decide)]
    omega
  · have e2 : (64 : Int) - 1 - (j : Int) / 8 = -((j : Int) / 8 - 63) := by ring
    rw [e2, Int.neg_tdiv, Int.tdiv_eq_ediv (by omega) (by decide)]
    omega

theorem dist_loop_col_range (channel : Channel) (buffer : Buffer) (j : Nat)
    (hw : channel.start_col + 2 ≤ channel.end_col)
    (h1 : channel.start_col ≤ channel.current_col)
    (h2 : channel.current_col < channel.end_col)
    (hj : (j : Int) ≤ channel.ball_count) :
    (dist_loop j 0 channel buffer).1.start_col ≤ (dist_loop j 0 channel buffer).1.current_col ∧
    (dist_loop j 0 channel buffer).1.current_col < (dist_loop j 0 channel buffer).1.end_col := by
  induction j with
  | zero => exact ⟨h1, h2⟩
  | succ k ih =>
    obtain ⟨i1, i2⟩ := ih (by push_cast at hj; omega)
    obtain ⟨f1, f2, -, -⟩ := dist_loop_fields k 0 channel buffer
    rw [dist_loop_succ k 0 channel buffer (by push_cast at hj; omega)]
    obtain ⟨b1, b2, -, -⟩ := dist_body_fields (dist_loop k 0 channel buffer).1
      (dist_loop k 0 channel buffer).2 (0 + (k : Int))
    rw [b1, b2, dist_body_current_col]
    split_ifs <;> omega

theorem dist_nth_marker_in_range (i : Nat) (hi : i < 8) (n : Int) (j : Nat)
    (hj : (j : Int) < n) (h568 : j < 568) :
    0 ≤ (dist_nth_marker i n j).col + (dist_nth_marker i n j).page * DISPLAY_WIDTH ∧
    (dist_nth_marker i n j).col + (dist_nth_marker i n j).page * DISPLAY_WIDTH <
      (ssd1306_buffer_length : Int) := by
  obtain ⟨c1, c2⟩ := init_channels_cols i hi
  have hs : (dist_reset { (init_channels buf_zero).1.getD i default with
      ball_count := n }).start_col = 36 + 8 * (i : Int) := c1
  have he : (dist_reset { (init_channels buf_zero).1.getD i default with
      ball_count := n }).end_col = 44 + 8 * (i : Int) := c2
  have hb : (dist_reset { (init_channels buf_zero).1.getD i default with
      ball_count := n }).ball_count = n := rfl
  have hc : 36 + 8 * (i : Int) ≤ (dist_reset { (init_channels buf_zero).1.getD i default with
      ball_count := n }).current_col ∧
      (dist_reset { (init_channels buf_zero).1.getD i default with
      ball_count := n }).current_col < 44 + 8 * (i : Int) := by
    simp only [dist_reset, c1, c2]
    split_ifs <;> omega
  unfold dist_nth_marker
  generalize dist_reset { (init_channels buf_zero).1.getD i default with
      ball_count := n } = R at hs he hb hc ⊢
  obtain ⟨r1, r2⟩ := dist_loop_col_range R buf_zero j (by omega) (by omega) (by omega)
    (by omega)
  obtain ⟨f1, f2, -, -⟩ := dist_loop_fields j 0 R buf_zero
  obtain ⟨p1, p2⟩ := dist_page_range (dist_loop j 0 R buf_zero).1 j h568
  have hcol : (dist_marker (dist_loop j 0 R buf_zero).1 j).col =
      (dist_loop j 0 R buf_zero).1.current_col := rfl
  rw [hcol]
  generalize (dist_marker (dist_loop j 0 R buf_zero).1 j).page = pg at p1 p2 ⊢
  generalize (dist_loop j 0 R buf_zero).1 = X at r1 r2 f1 f2 ⊢
  simp only [DISPLAY_WIDTH, ssd1306_buffer_length]
  push_cast
  omega

theorem getD_lt_of_bytes (buffer : Buffer) (hbytes : ∀ b ∈ buffer, b < 256) (p : Nat) :
    buffer.getD p 0 < 256 := by
  rw [List.getD_eq_getElem?_getD]
  by_cases h : p < buffer.length
  · rw [List.getElem?_eq_getElem h]
    exact hbytes _ (List.getElem_mem _)
  · rw [List.getElem?_eq_none (by omega)]
    decide

theorem buf_or_bytes (buffer : Buffer) (i : Int) (m : Nat) (h0 : 0 ≤ i)
    (hlt : i.toNat < buffer.length) :
    (buf_or buffer i m).length = buffer.length ∧
    (buf_or buffer i m).getD i.toNat 0 = (buffer.getD i.toNat 0 ||| m) % 256 ∧
    ∀ p : Nat, p ≠ i.toNat → (buf_or buffer i m).getD p 0 = buffer.getD p 0 := by
  unfold buf_or buf_set buf_get
  simp only [h0, if_true]
  refine ⟨List.length_set _ _ _, ?_, ?_⟩
  · rw [List.getD_eq_getElem?_getD, List.getElem?_set_self hlt]
    rfl
  · intro p hp
    simp only [List.getD_eq_getElem?_getD]
    rw [List.getElem?_set_ne (fun h => hp h.symm)]

theorem marker_bit_single (k : Nat) (hk : k ≤ 7) : (0x80 : Nat) >>> k = 2 ^ (7 - k) := by
  interval_cases k <;> decide

theorem or_marker_lt (a k : Nat) (ha : a < 256) (hk : k ≤ 7) :
    (a ||| ((0x80 : Nat) >>> k)) % 256 = a ||| ((0x80 : Nat) >>> k) := by
  apply Nat.mod_eq_of_lt
  have h1 : (0x80 : Nat) >>> k < 2 ^ 8 := by
    rw [marker_bit_single k hk]
    exact Nat.pow_lt_pow_right (by decide) (by omega)
  exact Nat.or_lt_two_pow (by simpa using ha) h1

theorem buf_zero_bytes :
    buf_zero.length = ssd1306_buffer_length ∧ ∀ b ∈ buf_zero, b < 256 := by
  refine ⟨List.length_replicate _ _, fun b hb => ?_⟩
  rw [List.eq_of_mem_replicate hb]
  decide

theorem buf_zero_getD (p : Nat) : buf_zero.getD p 0 = 0 := by
  unfold buf_zero
  rw [List.getD_eq_getElem?_getD, List.getElem?_replicate]
  split_ifs <;> rfl

theorem resting_ball_channel :
    in_channel resting_ball ((init_channels buf_zero).1.getD 4 default) ∧
    ∀ j, j < 4 → ¬ in_channel resting_ball ((init_channels buf_zero).1.getD j default) := by
  rw [init_channels_value]
  refine ⟨⟨by decide, by decide⟩, ?_⟩
  intro j hj
  interval_cases j <;> exact fun h => absurd h.2 (by decide)

theorem safe_reachable_reachable (entropy : Nat → Prop) (s : Sim)
    (h : SafeReachable entropy s) : Reachable s := by
  induction h with
  | init => exact Reachable.init
  | update k adc _ hk _ _ ih => exact Reachable.update k adc ih hk
  | distribution d _ _ ih => exact Reachable.distribution d ih
  | reset _ ih => exact Reachable.reset ih

theorem safe_reachable_false (s : Sim)
    (h : SafeReachable (fun adc => adc &&& 0x01 = 0) s) : ReachableFalse s := by
  induction h with
  | init => exact ReachableFalse.init
  | update k adc _ hk he _ ih => exact ReachableFalse.update k adc ih hk he
  | distribution d _ _ ih => exact ReachableFalse.distribution d ih
  | reset _ ih => exact ReachableFalse.reset ih

theorem safe_reachable_mono (e1 e2 : Nat → Prop) (he : ∀ a, e1 a → e2 a) (s : Sim)
    (h : SafeReachable e1 s) : SafeReachable e2 s := by
  induction h with
  | init => exact SafeReachable.init
  | update k adc _ hk ha hin ih => exact SafeReachable.update k adc ih hk (he adc ha) hin
  | distribution d _ hin ih => exact SafeReachable.distribution d ih hin
  | reset _ ih => exact SafeReachable.reset ih

/-! ## Buffers that share their first bytes -/

theorem buf_get_append (P T : Buffer) (i : Int) (h : buf_in P.length i) :
    buf_get (P ++ T) i = buf_get P i := by
  obtain ⟨h0, h1⟩ := h
  unfold buf_get
  simp only [h0, if_true]
  exact List.getD_append _ _ _ _ (by omega)

theorem buf_set_append (P T : Buffer) (i : Int) (v : Nat) (h : buf_in P.length i) :
    buf_set (P ++ T) i v = buf_set P i v ++ T := by
  obtain ⟨h0, h1⟩ := h
  unfold buf_set
  simp only [h0, if_true]
  exact List.set_append_left _ _ (by omega)

theorem buf_set_length (P : Buffer) (i : Int) (v : Nat) : (buf_set P i v).length = P.length := by
  unfold buf_set
  split_ifs
  · exact List.length_set _ _ _
  · rfl

theorem buf_or_append (P T : Buffer) (i : Int) (m : Nat) (h : buf_in P.length i) :
    buf_or (P ++ T) i m = buf_or P i m ++ T := by
  unfold buf_or
  rw [buf_get_append P T i h, buf_set_append P T i _ h]

theorem buf_clear_append (P T : Buffer) (i : Int) (m : Nat) (h : buf_in P.length i) :
    buf_clear (P ++ T) i m = buf_clear P i m ++ T := by
  unfold buf_clear
  rw [buf_get_append P T i h, buf_set_append P T i _ h]

theorem buf_or_length (P : Buffer) (i : Int) (m : Nat) : (buf_or P i m).length = P.length :=
  buf_set_length _ _ _

theorem buf_clear_length (P : Buffer) (i : Int) (m : Nat) :
    (buf_clear P i m).length = P.length :=
  buf_set_length _ _ _

theorem erase_ball_length (b : Ball) (P : Buffer) : (erase_ball b P).length = P.length := by
  simp only [erase_ball, buf_clear_length]

theorem draw_ball_length (b : Ball) (P : Buffer) : (draw_ball b P).length = P.length := by
  simp only [draw_ball, buf_or_length]

theorem erase_ball_append (b : Ball) (P T : Buffer) (h : sprite_in P.length b) :
    erase_ball b (P ++ T) = erase_ball b P ++ T := by
  simp only [erase_ball]
  rw [buf_clear_append _ _ _ _ h.1,
    buf_clear_append _ _ _ _ (by rw [buf_clear_length]; exact h.2)]

theorem draw_ball_append (b : Ball) (P T : Buffer) (h : sprite_in P.length b) :
    draw_ball b (P ++ T) = draw_ball b P ++ T := by
  simp only [draw_ball]
  rw [buf_or_append _ _ _ _ h.1,
    buf_or_append _ _ _ _ (by rw [buf_or_length]; exact h.2)]

theorem move_ball_x_ball (b : Ball) (P Q : Buffer) (d : Int) :
    (move_ball_x b P d).1 = (move_ball_x b Q d).1 := rfl

theorem move_ball_x_length (b : Ball) (P : Buffer) (d : Int) :
    (move_ball_x b P d).2.length = P.length := by
  simp only [move_ball_x, draw_ball_length, erase_ball_length]

theorem move_ball_x_append (b : Ball) (P T : Buffer) (d : Int)
    (h : move_ball_x_in P.length b d) :
    move_ball_x b (P ++ T) d = ((move_ball_x b P d).1, (move_ball_x b P d).2 ++ T) := by
  obtain ⟨h1, h2⟩ := h
  simp only [move_ball_x] at h2 ⊢
  rw [erase_ball_append b P T h1, draw_ball_append _ _ _ (by rw [erase_ball_length]; exact h2)]

theorem move_ball_y_ball (b : Ball) (P Q : Buffer) :
    (move_ball_y b P).1 = (move_ball_y b Q).1 := by
  unfold move_ball_y
  simp only []
  split_ifs <;> rfl

theorem move_ball_y_length (b : Ball) (P : Buffer) :
    (move_ball_y b P).2.length = P.length := by
  unfold move_ball_y
  simp only []
  split_ifs <;> simp only [draw_ball_length, erase_ball_length, buf_clear_length]

theorem move_ball_y_buffer (b : Ball) (buf : Buffer) :
    (move_ball_y b buf).2 =
      if (move_ball_y b buf).1.y ≥ DISPLAY_HEIGHT - 8 then
        (if b.pattern >>> (8 - b.speed).toNat > 0 ∨ b.page_changed = 0 then erase_ball b buf
          else buf_clear (buf_clear (erase_ball b buf)
            (b.x_left + Int.tdiv b.prev_page 8 * DISPLAY_WIDTH)
              (b.pattern <<< (8 - b.speed).toNat))
            (b.x_right + Int.tdiv b.prev_page 8 * DISPLAY_WIDTH)
              (b.pattern <<< (8 - b.speed).toNat))
      else
        draw_ball (move_ball_y b buf).1
          (if b.pattern >>> (8 - b.speed).toNat > 0 ∨ b.page_changed = 0 then erase_ball b buf
            else buf_clear (buf_clear (erase_ball b buf)
              (b.x_left + Int.tdiv b.prev_page 8 * DISPLAY_WIDTH)
                (b.pattern <<< (8 - b.speed).toNat))
              (b.x_right + Int.tdiv b.prev_page 8 * DISPLAY_WIDTH)
                (b.pattern <<< (8 - b.speed).toNat)) := by
  unfold move_ball_y
  simp only []
  split_ifs <;> simp_all

theorem move_ball_y_append (b : Ball) (P T : Buffer) (h : move_ball_y_in P.length b) :
    move_ball_y b (P ++ T) = ((move_ball_y b P).1, (move_ball_y b P).2 ++ T) := by
  obtain ⟨h1, h2, h3⟩ := h
  rw [move_ball_y_ball b [] P] at h3
  apply Prod.ext
  · exact move_ball_y_ball _ _ _
  · show (move_ball_y b (P ++ T)).2 = (move_ball_y b P).2 ++ T
    rw [move_ball_y_buffer b (P ++ T), move_ball_y_buffer b P, move_ball_y_ball b (P ++ T) P,
      erase_ball_append b P T h1]
    have he : (if b.pattern >>> (8 - b.speed).toNat > 0 ∨ b.page_changed = 0
          then erase_ball b P ++ T
          else buf_clear (buf_clear (erase_ball b P ++ T)
            (b.x_left + Int.tdiv b.prev_page 8 * DISPLAY_WIDTH)
              (b.pattern <<< (8 - b.speed).toNat))
            (b.x_right + Int.tdiv b.prev_page 8 * DISPLAY_WIDTH)
              (b.pattern <<< (8 - b.speed).toNat)) =
        (if b.pattern >>> (8 - b.speed).toNat > 0 ∨ b.page_changed = 0 then erase_ball b P
          else buf_clear (buf_clear (erase_ball b P)
            (b.x_left + Int.tdiv b.prev_page 8 * DISPLAY_WIDTH)
              (b.pattern <<< (8 - b.speed).toNat))
            (b.x_right + Int.tdiv b.prev_page 8 * DISPLAY_WIDTH)
              (b.pattern <<< (8 - b.speed).toNat)) ++ T := by
      split_ifs with c
      · rfl
      · have h4 : buf_in P.length (b.x_left + Int.tdiv b.prev_page 8 * DISPLAY_WIDTH) ∧
            buf_in P.length (b.x_right + Int.tdiv b.prev_page 8 * DISPLAY_WIDTH) := by
          rcases h2 with h2 | h2 | h2
          · exact absurd (Or.inl h2) c
          · exact absurd (Or.inr h2) c
          · exact h2
        rw [buf_clear_append _ _ _ _ (by rw [erase_ball_length]; exact h4.1),
          buf_clear_append _ _ _ _ (by rw [buf_clear_length, erase_ball_length]; exact h4.2)]
    rw [he]
    have hl : (if b.pattern >>> (8 - b.speed).toNat > 0 ∨ b.page_changed = 0 then erase_ball b P
          else buf_clear (buf_clear (erase_ball b P)
            (b.x_left + Int.tdiv b.prev_page 8 * DISPLAY_WIDTH)
              (b.pattern <<< (8 - b.speed).toNat))
            (b.x_right + Int.tdiv b.prev_page 8 * DISPLAY_WIDTH)
              (b.pattern <<< (8 - b.speed).toNat)).length = P.length := by
      split_ifs <;> simp only [buf_clear_length, erase_ball_length]
    generalize (if b.pattern >>> (8 - b.speed).toNat > 0 ∨ b.page_changed = 0
          then erase_ball b P
          else buf_clear (buf_clear (erase_ball b P)
            (b.x_left + Int.tdiv b.prev_page 8 * DISPLAY_WIDTH)
              (b.pattern <<< (8 - b.speed).toNat))
            (b.x_right + Int.tdiv b.prev_page 8 * DISPLAY_WIDTH)
              (b.pattern <<< (8 - b.speed).toNat)) = E at hl ⊢
    by_cases c : (move_ball_y b P).1.y ≥ DISPLAY_HEIGHT - 8
    · rw [if_pos c, if_pos c]
    · rw [if_neg c, if_neg c]
      rw [draw_ball_append _ _ _ (by
        rw [hl]
        rcases h3 with h3 | h3
        · exact absurd h3 c
        · exact h3)]

theorem buf_get_set (P : Buffer) (i j : Int) (v : Nat) (hi : buf_in P.length i) :
    buf_get (buf_set P i v) j = if j = i then v % 256 else buf_get P j := by
  obtain ⟨h0, h1⟩ := hi
  unfold buf_get buf_set
  simp only [h0, if_true]
  by_cases hj : 0 ≤ j
  · simp only [hj, if_true]
    by_cases hji : j = i
    · subst hji
      simp only [if_true]
      rw [List.getD_eq_getElem?_getD, List.getElem?_set_self (by omega)]
      rfl
    · simp only [hji, if_false]
      simp only [List.getD_eq_getElem?_getD]
      rw [List.getElem?_set_ne (by omega)]
  · have hji : j ≠ i := by omega
    simp only [hj, hji, if_false]

theorem buf_set_same (P : Buffer) (i : Int) (v : Nat) (hv : buf_get P i = v % 256) :
    buf_set P i v = P := by
  unfold buf_set
  split_ifs with h0
  · unfold buf_get at hv
    simp only [h0, if_true] at hv
    by_cases h1 : i.toNat < P.length
    · apply List.ext_getElem (List.length_set _ _ _)
      intro n hn1 hn2
      by_cases hn : i.toNat = n
      · subst hn
        rw [List.getElem_set_self]
        rw [List.getD_eq_getElem _ _ h1] at hv
        exact hv.symm
      · rw [List.getElem_set_ne hn]
    · exact List.set_eq_of_length_le (by omega)
  · rfl

theorem buf_set_set (P : Buffer) (i : Int) (v w : Nat) :
    buf_set (buf_set P i v) i w = buf_set P i w := by
  unfold buf_set
  split_ifs
  · exact List.set_set _ _ _ _
  · rfl

theorem buf_set_comm (P : Buffer) (i j : Int) (v w : Nat) (h : i ≠ j) (hi : 0 ≤ i)
    (hj : 0 ≤ j) :
    buf_set (buf_set P i v) j w = buf_set (buf_set P j w) i v := by
  unfold buf_set
  simp only [hi, hj, if_true]
  exact List.set_comm _ _ _ (by omega)

set_option maxRecDepth 100000 in
theorem byte_clear_self : ∀ x : Nat, x < 256 → x &&& (255 ^^^ x) = 0 := by
  decide

/-- Drawing a sprite on two distinct zero bytes stores the pattern there. -/
theorem draw_ball_zero (b : Ball) (P : Buffer) (hin : sprite_in P.length b)
    (hne : b.x_left ≠ b.x_right)
    (hL : buf_get P (b.x_left + Int.tdiv b.y 8 * DISPLAY_WIDTH) = 0)
    (hR : buf_get P (b.x_right + Int.tdiv b.y 8 * DISPLAY_WIDTH) = 0) :
    draw_ball b P =
      buf_set (buf_set P (b.x_left + Int.tdiv b.y 8 * DISPLAY_WIDTH) b.pattern)
        (b.x_right + Int.tdiv b.y 8 * DISPLAY_WIDTH) b.pattern := by
  simp only [draw_ball, buf_or]
  rw [hL, buf_get_set _ _ _ _ hin.1, if_neg (by omega), hR]
  simp only [Nat.zero_or]

/-- Erasing a sprite that was drawn on two distinct zero bytes restores the
buffer. -/
theorem erase_draw_ball (b : Ball) (P : Buffer) (hin : sprite_in P.length b)
    (hne : b.x_left ≠ b.x_right)
    (hL : buf_get P (b.x_left + Int.tdiv b.y 8 * DISPLAY_WIDTH) = 0)
    (hR : buf_get P (b.x_right + Int.tdiv b.y 8 * DISPLAY_WIDTH) = 0) :
    erase_ball b (draw_ball b P) = P := by
  rw [draw_ball_zero b P hin hne hL hR]
  obtain ⟨hinL, hinR⟩ := hin
  have hm : b.pattern % 256 < 256 := Nat.mod_lt _ (by decide)
  have hd : b.x_left + Int.tdiv b.y 8 * DISPLAY_WIDTH ≠
      b.x_right + Int.tdiv b.y 8 * DISPLAY_WIDTH := by omega
  simp only [erase_ball, buf_clear]
  generalize b.x_left + Int.tdiv b.y 8 * DISPLAY_WIDTH = iL at hinL hL hd ⊢
  generalize b.x_right + Int.tdiv b.y 8 * DISPLAY_WIDTH = iR at hinR hR hd ⊢
  generalize b.pattern = m at hm ⊢
  have hinR1 : buf_in (buf_set P iL m).length iR := by rw [buf_set_length]; exact hinR
  have hinL2 : buf_in (buf_set (buf_set P iL m) iR m).length iL := by
    rw [buf_set_length, buf_set_length]; exact hinL
  have g1 : buf_get (buf_set (buf_set P iL m) iR m) iL = m % 256 := by
    rw [buf_get_set _ _ _ _ hinR1, if_neg hd, buf_get_set _ _ _ _ hinL, if_pos rfl]
  rw [g1, byte_clear_self _ hm]
  have g2 : buf_get (buf_set (buf_set (buf_set P iL m) iR m) iL 0) iR = m % 256 := by
    rw [buf_get_set _ _ _ _ hinL2, if_neg (Ne.symm hd), buf_get_set _ _ _ _ hinR1, if_pos rfl]
  rw [g2, byte_clear_self _ hm]
  rw [buf_set_comm (buf_set P iL m) iR iL m 0 (Ne.symm hd) hinR.1 hinL.1, buf_set_set,
    buf_set_set, buf_set_same P iL 0 (by rw [hL])]
  exact buf_set_same P iR 0 (by rw [hR])

/-- Erasing a sprite over two zero bytes changes nothing. -/
theorem erase_ball_zero (b : Ball) (P : Buffer)
    (hL : buf_get P (b.x_left + Int.tdiv b.y 8 * DISPLAY_WIDTH) = 0)
    (hR : buf_get P (b.x_right + Int.tdiv b.y 8 * DISPLAY_WIDTH) = 0) :
    erase_ball b P = P := by
  simp only [erase_ball, buf_clear]
  rw [hL, Nat.zero_and, buf_set_same P _ 0 (by rw [hL]), hR, Nat.zero_and,
    buf_set_same P _ 0 (by rw [hR])]

/-- Reading a buffer on which a sprite was drawn over two distinct zero bytes. -/
theorem buf_get_draw_ball (b : Ball) (P : Buffer) (j : Int) (hin : sprite_in P.length b)
    (hne : b.x_left ≠ b.x_right)
    (hL : buf_get P (b.x_left + Int.tdiv b.y 8 * DISPLAY_WIDTH) = 0)
    (hR : buf_get P (b.x_right + Int.tdiv b.y 8 * DISPLAY_WIDTH) = 0) :
    buf_get (draw_ball b P) j =
      if j = b.x_left + Int.tdiv b.y 8 * DISPLAY_WIDTH ∨
          j = b.x_right + Int.tdiv b.y 8 * DISPLAY_WIDTH
        then b.pattern % 256 else buf_get P j := by
  rw [draw_ball_zero b P hin hne hL hR,
    buf_get_set _ _ _ _ (by rw [buf_set_length]; exact hin.2), buf_get_set _ _ _ _ hin.1]
  by_cases h1 : j = b.x_right + Int.tdiv b.y 8 * DISPLAY_WIDTH
  · simp [h1]
  · by_cases h2 : j = b.x_left + Int.tdiv b.y 8 * DISPLAY_WIDTH
    · simp [h2]
    · simp [h1, h2]

/-! ## A drop with entropy 0 -/

theorem fall_ball_track : ∀ i, i < 53 →
    track_ok (fall_ball (i + 1)) ∧ track_next (fall_ball (i + 1)) = fall_ball (i + 2) ∧
    (fall_ball (i + 2)).y < DISPLAY_HEIGHT - 8 := by
  decide!

theorem upper_pages_length : upper_pages.length = 896 := by
  simp [upper_pages]

theorem pin_bytes_lt : ∀ k ∈ pin_bytes, k < 896 := by
  decide

theorem upper_get (i : Int) : buf_get upper_pages i = pin_byte i := by
  unfold buf_get pin_byte
  by_cases h0 : 0 ≤ i
  · simp only [h0, if_true, true_and]
    by_cases h1 : i.toNat < 896
    · rw [List.getD_eq_getElem?_getD, upper_pages, List.getElem?_map,
        List.getElem?_range h1]
      rfl
    · rw [List.getD_eq_getElem?_getD, List.getElem?_eq_none (by rw [upper_pages_length]; omega)]
      have : i.toNat ∉ pin_bytes := fun h => h1 (pin_bytes_lt _ h)
      simp [this]
  · simp [h0]

theorem sprite_in_mono (n m : Nat) (b : Ball) (h : sprite_in n b) (hnm : n ≤ m) :
    sprite_in m b := by
  unfold sprite_in buf_in at h ⊢
  omega

theorem move_ball_x_in_mono (n m : Nat) (b : Ball) (d : Int) (h : move_ball_x_in n b d)
    (hnm : n ≤ m) : move_ball_x_in m b d :=
  ⟨sprite_in_mono n m _ h.1 hnm, sprite_in_mono n m _ h.2 hnm⟩

theorem move_ball_y_in_mono (n m : Nat) (b : Ball) (h : move_ball_y_in n b) (hnm : n ≤ m) :
    move_ball_y_in m b := by
  obtain ⟨h1, h2, h3⟩ := h
  refine ⟨sprite_in_mono n m _ h1 hnm, ?_, ?_⟩
  · rcases h2 with h2 | h2 | h2
    · exact Or.inl h2
    · exact Or.inr (Or.inl h2)
    · right; right
      unfold buf_in at h2 ⊢
      omega
  · rcases h3 with h3 | h3
    · exact Or.inl h3
    · exact Or.inr (sprite_in_mono n m _ h3 hnm)

theorem check_collision_append (b : Ball) (P T : Buffer) (h1 : sprite_in P.length b)
    (h2 : (b.pattern >>> (8 - b.speed).toNat) % 256 = 0 ∨
      (buf_in P.length (b.x_left + Int.tdiv (b.y + 8) 8 * DISPLAY_WIDTH) ∧
        buf_in P.length (b.x_right + Int.tdiv (b.y + 8) 8 * DISPLAY_WIDTH))) :
    check_collision b (P ++ T) = check_collision b P := by
  unfold check_collision
  simp only []
  rw [buf_get_append P T _ h1.1, buf_get_append P T _ h1.2]
  rcases h2 with h2 | h2
  · simp only [h2, Nat.and_zero]
  · rw [buf_get_append P T _ h2.1, buf_get_append P T _ h2.2]

theorem check_collision_draw (b : Ball) (h : sprite_free b)
    (ha : b.x_left + Int.tdiv (b.y + 8) 8 * DISPLAY_WIDTH ≠
        b.x_left + Int.tdiv b.y 8 * DISPLAY_WIDTH ∧
      b.x_left + Int.tdiv (b.y + 8) 8 * DISPLAY_WIDTH ≠
        b.x_right + Int.tdiv b.y 8 * DISPLAY_WIDTH ∧
      b.x_right + Int.tdiv (b.y + 8) 8 * DISPLAY_WIDTH ≠
        b.x_left + Int.tdiv b.y 8 * DISPLAY_WIDTH ∧
      b.x_right + Int.tdiv (b.y + 8) 8 * DISPLAY_WIDTH ≠
        b.x_right + Int.tdiv b.y 8 * DISPLAY_WIDTH) :
    check_collision b (draw_ball b upper_pages) = if track_hit b then 1 else 0 := by
  obtain ⟨h1, h2, h3, h4⟩ := h
  have hin : sprite_in upper_pages.length b := by rw [upper_pages_length]; exact h1
  have hL := (upper_get (b.x_left + Int.tdiv b.y 8 * DISPLAY_WIDTH)).trans h3
  have hR := (upper_get (b.x_right + Int.tdiv b.y 8 * DISPLAY_WIDTH)).trans h4
  have g1 : buf_get (draw_ball b upper_pages) (b.x_left + Int.tdiv b.y 8 * DISPLAY_WIDTH) =
      b.pattern % 256 := by
    rw [buf_get_draw_ball b upper_pages _ hin h2 hL hR, if_pos (Or.inl rfl)]
  have g2 : buf_get (draw_ball b upper_pages) (b.x_right + Int.tdiv b.y 8 * DISPLAY_WIDTH) =
      b.pattern % 256 := by
    rw [buf_get_draw_ball b upper_pages _ hin h2 hL hR, if_pos (Or.inr rfl)]
  have g3 : buf_get (draw_ball b upper_pages)
      (b.x_left + Int.tdiv (b.y + 8) 8 * DISPLAY_WIDTH) =
      pin_byte (b.x_left + Int.tdiv (b.y + 8) 8 * DISPLAY_WIDTH) := by
    rw [buf_get_draw_ball b upper_pages _ hin h2 hL hR, if_neg (by
      rintro (h | h)
      · exact ha.1 h
      · exact ha.2.1 h), upper_get]
  have g4 : buf_get (draw_ball b upper_pages)
      (b.x_right + Int.tdiv (b.y + 8) 8 * DISPLAY_WIDTH) =
      pin_byte (b.x_right + Int.tdiv (b.y + 8) 8 * DISPLAY_WIDTH) := by
    rw [buf_get_draw_ball b upper_pages _ hin h2 hL hR, if_neg (by
      rintro (h | h)
      · exact ha.2.2.1 h
      · exact ha.2.2.2 h), upper_get]
  unfold check_collision track_hit
  simp only []
  rw [g1, g2, g3, g4]

theorem buf_clear_zero (P : Buffer) (i : Int) (m : Nat) (h : buf_get P i = 0) :
    buf_clear P i m = P := by
  unfold buf_clear
  rw [h, Nat.zero_and]
  exact buf_set_same P i 0 (by rw [h])

/-- The effect of `move_ball_y` on a ball whose sprite is drawn on
`upper_pages`, with any base page `T` behind it. -/
theorem move_ball_y_draw (b : Ball) (T : Buffer) (h : sprite_free b)
    (hy : move_ball_y_in 896 b)
    (ht : b.pattern >>> (8 - b.speed).toNat > 0 ∨ b.page_changed = 0 ∨
      (pin_byte (b.x_left + Int.tdiv b.prev_page 8 * DISPLAY_WIDTH) = 0 ∧
        pin_byte (b.x_right + Int.tdiv b.prev_page 8 * DISPLAY_WIDTH) = 0)) :
    move_ball_y b (draw_ball b upper_pages ++ T) =
      ((move_ball_y b []).1,
        (if (move_ball_y b []).1.y ≥ DISPLAY_HEIGHT - 8 then upper_pages
          else draw_ball (move_ball_y b []).1 upper_pages) ++ T) := by
  obtain ⟨h1, h2, h3, h4⟩ := h
  have hin : sprite_in upper_pages.length b := by rw [upper_pages_length]; exact h1
  have hL := (upper_get (b.x_left + Int.tdiv b.y 8 * DISPLAY_WIDTH)).trans h3
  have hR := (upper_get (b.x_right + Int.tdiv b.y 8 * DISPLAY_WIDTH)).trans h4
  have hlen : (draw_ball b upper_pages).length = 896 := by
    rw [draw_ball_length, upper_pages_length]
  rw [move_ball_y_append b _ T (by rw [hlen]; exact hy)]
  rw [move_ball_y_buffer, move_ball_y_ball b (draw_ball b upper_pages) [],
    erase_draw_ball b upper_pages hin h2 hL hR]
  have he : (if b.pattern >>> (8 - b.speed).toNat > 0 ∨ b.page_changed = 0 then upper_pages
      else buf_clear (buf_clear upper_pages
          (b.x_left + Int.tdiv b.prev_page 8 * DISPLAY_WIDTH)
            (b.pattern <<< (8 - b.speed).toNat))
          (b.x_right + Int.tdiv b.prev_page 8 * DISPLAY_WIDTH)
            (b.pattern <<< (8 - b.speed).toNat)) = upper_pages := by
    split_ifs with c
    · rfl
    · have h5 : pin_byte (b.x_left + Int.tdiv b.prev_page 8 * DISPLAY_WIDTH) = 0 ∧
          pin_byte (b.x_right + Int.tdiv b.prev_page 8 * DISPLAY_WIDTH) = 0 := by
        rcases ht with ht | ht | ht
        · exact absurd (Or.inl ht) c
        · exact absurd (Or.inr ht) c
        · exact ht
      rw [buf_clear_zero upper_pages _ _ ((upper_get _).trans h5.1),
        buf_clear_zero upper_pages _ _ ((upper_get _).trans h5.2)]
  rw [he]

/-- The effect of `move_ball_x` to the right on a ball whose sprite is drawn
on `upper_pages`. -/
theorem move_ball_x_draw (b : Ball) (T : Buffer) (h : sprite_free b)
    (hx : sprite_free (move_ball_x b [] 0).1) :
    move_ball_x b (draw_ball b upper_pages ++ T) 0 =
      ((move_ball_x b [] 0).1, draw_ball (move_ball_x b [] 0).1 upper_pages ++ T) := by
  obtain ⟨h1, h2, h3, h4⟩ := h
  have hin : sprite_in upper_pages.length b := by rw [upper_pages_length]; exact h1
  have hL := (upper_get (b.x_left + Int.tdiv b.y 8 * DISPLAY_WIDTH)).trans h3
  have hR := (upper_get (b.x_right + Int.tdiv b.y 8 * DISPLAY_WIDTH)).trans h4
  have hlen : (draw_ball b upper_pages).length = 896 := by
    rw [draw_ball_length, upper_pages_length]
  have hb : (move_ball_x b (draw_ball b upper_pages) 0).2 =
      draw_ball (move_ball_x b [] 0).1 upper_pages := by
    show draw_ball (move_ball_x b [] 0).1 (erase_ball b (draw_ball b upper_pages)) = _
    rw [erase_draw_ball b upper_pages hin h2 hL hR]
  rw [move_ball_x_append b _ T 0 (by rw [hlen]; exact ⟨h1, hx.1⟩), hb,
    move_ball_x_ball b (draw_ball b upper_pages) [] 0]

theorem track_collision (b : Ball) (T : Buffer) (h : track_ok b) :
    check_collision b (draw_ball b upper_pages ++ T) = if track_hit b then 1 else 0 := by
  obtain ⟨-, -, -, hfree, hapart, hnext, -, -, -⟩ := h
  have hlen : (draw_ball b upper_pages).length = 896 := by
    rw [draw_ball_length, upper_pages_length]
  rw [check_collision_append _ _ _ (by rw [hlen]; exact hfree.1) (by rw [hlen]; exact hnext),
    check_collision_draw b hfree hapart]

theorem track_moved_eq (b : Ball) (T : Buffer) (h : track_ok b) :
    (if check_collision b (draw_ball b upper_pages ++ T) ≠ 0
      then move_ball_x b (draw_ball b upper_pages ++ T) 0
      else (b, draw_ball b upper_pages ++ T)) =
    (track_moved b, draw_ball (track_moved b) upper_pages ++ T) := by
  rw [track_collision b T h]
  obtain ⟨-, -, -, hfree, -, -, hfm, -, -⟩ := h
  unfold track_moved at hfm ⊢
  by_cases hit : track_hit b
  · simp only [hit, if_true] at hfm ⊢
    rw [if_pos (by decide), move_ball_x_draw b T hfree hfm]
  · simp only [hit, if_false] at hfm ⊢
    rw [if_neg (by decide)]

/-- One `update_ball` call with entropy 0 on a falling ball whose sprite is
drawn on `upper_pages`, with any base page `T` behind it. -/
theorem update_ball_track (b : Ball) (T : Buffer) (chs : List Channel) (adc : Nat)
    (hadc : adc &&& 0x01 = 0) (h : track_ok b) :
    update_ball b (draw_ball b upper_pages ++ T) chs adc =
      (track_next b,
        (if (track_next b).y ≥ DISPLAY_HEIGHT - 8 then upper_pages
          else draw_ball (track_next b) upper_pages) ++ T, chs) := by
  have hm := track_moved_eq b T h
  obtain ⟨hact, -, -, -, -, -, hfm, hym, htr⟩ := h
  unfold update_ball
  rw [if_neg hact]
  simp only [hadc, Nat.cast_zero]
  rw [hm]
  simp only []
  rw [move_ball_y_draw (track_moved b) T hfm hym htr]
  rfl

theorem update_ball_in_track (b : Ball) (T : Buffer) (chs : List Channel) (adc : Nat)
    (hadc : adc &&& 0x01 = 0) (h : track_ok b) :
    update_ball_in ssd1306_buffer_length b (draw_ball b upper_pages ++ T) chs adc := by
  have hm := track_moved_eq b T h
  have hc := track_collision b T h
  obtain ⟨hact, hsp, hcc, hfree, -, -, hfm, hym, -⟩ := h
  have h1024 : 896 ≤ ssd1306_buffer_length := by decide
  unfold update_ball_in
  rw [if_neg hact]
  simp only [hadc, Nat.cast_zero]
  rw [hm]
  refine ⟨hsp, hcc, ?_, move_ball_y_in_mono 896 _ _ hym h1024⟩
  rw [hc]
  by_cases hit : track_hit b
  · right
    unfold track_moved at hfm
    simp only [hit, if_true] at hfm
    exact ⟨sprite_in_mono 896 _ _ hfree.1 h1024, sprite_in_mono 896 _ _ hfm.1 h1024⟩
  · left
    simp only [hit, if_false]

theorem getD_set_self (l : List Channel) (i : Nat) (c : Channel) (hi : i < l.length) :
    (l.set i c).getD i default = c := by
  rw [List.getD_eq_getElem?_getD, List.getElem?_set_self hi]
  rfl

theorem getD_set_ne (l : List Channel) (i j : Nat) (c : Channel) (hij : i ≠ j) :
    (l.set i c).getD j default = l.getD j default := by
  simp only [List.getD_eq_getElem?_getD]
  rw [List.getElem?_set_ne hij]

theorem getD_set_field {α : Type} (l : List Channel) (i j : Nat) (c : Channel)
    (f : Channel → α) (hf : f c = f (l.getD i default)) :
    f ((l.set i c).getD j default) = f (l.getD j default) := by
  by_cases hij : i = j
  · subst hij
    by_cases hi : i < l.length
    · rw [getD_set_self l i c hi, hf]
    · rw [List.set_eq_of_length_le (by omega)]
  · rw [getD_set_ne l i j c hij]

theorem bits_incr_length (bits : List Int) (col : Int) :
    (bits_incr bits col).length = bits.length := by
  unfold bits_incr
  split_ifs
  · exact List.length_set _ _ _
  · rfl

/-- What `register_ball` keeps of every channel. -/
theorem register_ball_cols (ball : Ball) (buffer : Buffer) (channels : List Channel) :
    (register_ball ball buffer channels).2.2.length = channels.length ∧
    ∀ j : Nat,
      ((register_ball ball buffer channels).2.2.getD j default).start_col =
        (channels.getD j default).start_col ∧
      ((register_ball ball buffer channels).2.2.getD j default).end_col =
        (channels.getD j default).end_col ∧
      ((register_ball ball buffer channels).2.2.getD j default).ball_count =
        (channels.getD j default).ball_count ∧
      ((register_ball ball buffer channels).2.2.getD j default).bit_positions.length =
        (channels.getD j default).bit_positions.length := by
  unfold register_ball
  split_ifs with h1
  · exact ⟨rfl, fun j => ⟨rfl, rfl, rfl, rfl⟩⟩
  · simp only []
    refine ⟨List.length_set _ _ _, fun j => ⟨?_, ?_, ?_, ?_⟩⟩
    · apply getD_set_field _ _ _ _ (fun c => c.start_col)
      split_ifs <;> rfl
    · apply getD_set_field _ _ _ _ (fun c => c.end_col)
      split_ifs <;> rfl
    · apply getD_set_field _ _ _ _ (fun c => c.ball_count)
      split_ifs <;> rfl
    · apply getD_set_field _ _ _ _ (fun c => c.bit_positions.length)
      split_ifs <;> simp only [bits_incr_length]

theorem buf_or_append_right (P T : Buffer) (i : Int) (m : Nat) (h0 : 0 ≤ i)
    (h : P.length ≤ i.toNat) :
    buf_or (P ++ T) i m = P ++ buf_or T (i - P.length) m := by
  have h1 : 0 ≤ i - (P.length : Int) := by omega
  have h2 : (i - (P.length : Int)).toNat = i.toNat - P.length := by omega
  unfold buf_or buf_set buf_get
  simp only [h0, h1, if_true, h2]
  rw [List.getD_append_right _ _ _ _ h, List.set_append_right _ _ h]

/-- The registering call for a ball at rest on columns 77 and 78 or 79 and 80:
it is assigned to channel 5, whose count goes up by one, and the marker is
written on page 7. -/
theorem update_ball_land (x : Int) (hx : x = 77 ∨ x = 79) (T : Buffer) (hT : T.length = 128)
    (chs : List Channel) (n : Nat) (h : right_channels n chs) (adc : Nat) :
    update_ball_in ssd1306_buffer_length (rest_ball x) (upper_pages ++ T) chs adc ∧
    ∃ T2 chs2, T2.length = 128 ∧ right_channels (n + 1) chs2 ∧
      update_ball (rest_ball x) (upper_pages ++ T) chs adc =
        ({ rest_ball x with channel := 5, registered := 1 }, upper_pages ++ T2, chs2) := by
  obtain ⟨hl, hcols, hcnt, h5, hc1, hc2, hbits⟩ := h
  have hin : in_channel (rest_ball x) (chs.getD 5 default) := by
    obtain ⟨a, b⟩ := hcols 5 (by omega)
    simp only [in_channel, rest_ball, a, b]
    rcases hx with rfl | rfl <;> omega
  have hfirst : ∀ j, j < 5 → ¬ in_channel (rest_ball x) (chs.getD j default) := by
    intro j hj
    obtain ⟨a, b⟩ := hcols j (by omega)
    simp only [in_channel, rest_ball, a, b]
    rcases hx with rfl | rfl <;> omega
  have hscan := scan_channels_found (rest_ball x) chs 0 5 (by omega) hin hfirst
  have ha : (rest_ball x).active = 0 := rfl
  have hch : (rest_ball x).channel = -1 := rfl
  have hcell : (chs.set 5 { chs.getD 5 default with
      ball_count := (chs.getD 5 default).ball_count + 1 }).getD 5 default =
      { chs.getD 5 default with ball_count := (chs.getD 5 default).ball_count + 1 } :=
    getD_set_self _ _ _ (by omega)
  have hlen1 : (chs.set 5 { chs.getD 5 default with
      ball_count := (chs.getD 5 default).ball_count + 1 }).length = 8 := by
    rw [List.length_set, hl]
  have hupd : update_ball (rest_ball x) (upper_pages ++ T) chs adc =
      register_ball { rest_ball x with channel := ((5 : Nat) : Int) } (upper_pages ++ T)
        (chs.set 5 { chs.getD 5 default with
          ball_count := (chs.getD 5 default).ball_count + 1 }) := by
    unfold update_ball
    rw [if_pos ha, if_pos hch, hscan]
    simp only [zero_add]
  constructor
  · unfold update_ball_in
    rw [if_pos ha, if_pos hch, hscan]
    simp only [zero_add]
    right; right
    simp only [Int.toNat_ofNat, hcell, hlen1, hbits]
    obtain ⟨a, b⟩ := hcols 5 (by omega)
    simp only [a, buf_in, DISPLAY_HEIGHT, DISPLAY_WIDTH, ssd1306_buffer_length]
    refine ⟨by decide, by decide, by omega, by omega, ?_, ?_⟩
    · have : Int.tdiv (64 - 1) 8 = 7 := by decide
      rw [this]; omega
    · have : Int.tdiv (64 - 1) 8 = 7 := by decide
      rw [this]; push_cast; omega
  · obtain ⟨r1, ⟨k, hk, r2⟩, -⟩ := register_ball_landing
      { rest_ball x with channel := ((5 : Nat) : Int) } (upper_pages ++ T)
      (chs.set 5 { chs.getD 5 default with
        ball_count := (chs.getD 5 default).ball_count + 1 }) 5 rfl rfl
    obtain ⟨c1, c2⟩ := register_ball_cols
      { rest_ball x with channel := ((5 : Nat) : Int) } (upper_pages ++ T)
      (chs.set 5 { chs.getD 5 default with
        ball_count := (chs.getD 5 default).ball_count + 1 })
    obtain ⟨-, -, -, c3⟩ := register_ball_channel
      { rest_ball x with channel := ((5 : Nat) : Int) } (upper_pages ++ T)
      (chs.set 5 { chs.getD 5 default with
        ball_count := (chs.getD 5 default).ball_count + 1 }) 5 (by omega) rfl rfl
    rw [hcell] at r2 c3
    simp only [] at r2 c3
    obtain ⟨a5, b5⟩ := hcols 5 (by omega)
    refine ⟨buf_or T ((chs.getD 5 default).current_col + 7 * DISPLAY_WIDTH - (896 : Nat))
      (0x80 >>> k),
      (register_ball { rest_ball x with channel := ((5 : Nat) : Int) } (upper_pages ++ T)
        (chs.set 5 { chs.getD 5 default with
          ball_count := (chs.getD 5 default).ball_count + 1 })).2.2, ?_, ?_, ?_⟩
    · rw [buf_or_length, hT]
    · refine ⟨c1.trans hlen1, fun j hj => ?_, fun j hj hj5 => ?_, ?_, ?_, ?_, ?_⟩
      · obtain ⟨d1, d2, -, -⟩ := c2 j
        have e1 : ((chs.set 5 { chs.getD 5 default with
            ball_count := (chs.getD 5 default).ball_count + 1 }).getD j default).start_col =
            (chs.getD j default).start_col :=
          getD_set_field chs 5 j _ (fun c => c.start_col) rfl
        have e2 : ((chs.set 5 { chs.getD 5 default with
            ball_count := (chs.getD 5 default).ball_count + 1 }).getD j default).end_col =
            (chs.getD j default).end_col :=
          getD_set_field chs 5 j _ (fun c => c.end_col) rfl
        rw [d1, d2, e1, e2]
        exact hcols j hj
      · obtain ⟨-, -, d3, -⟩ := c2 j
        rw [d3, getD_set_ne _ _ _ _ (Ne.symm hj5)]
        exact hcnt j hj hj5
      · obtain ⟨-, -, d3, -⟩ := c2 5
        rw [d3, hcell]
        simp only []
        rw [h5]
        push_cast
        rfl
      · rw [c3, a5, b5]
        simp only [DISPLAY_WIDTH]
        split_ifs <;> omega
      · rw [c3, a5, b5]
        simp only [DISPLAY_WIDTH]
        split_ifs <;> omega
      · obtain ⟨-, -, -, d4⟩ := c2 5
        rw [d4, hcell]
        exact hbits
    · rw [hupd]
      apply Prod.ext
      · rw [r1]
        rfl
      · apply Prod.ext
        · show (register_ball _ _ _).2.1 = _
          rw [r2, buf_or_append_right _ _ _ _ (by simp only [DISPLAY_WIDTH]; omega) (by
            rw [upper_pages_length]; simp only [DISPLAY_WIDTH]; omega), upper_pages_length]
        · rfl

set_option maxRecDepth 10000 in
theorem move_ball_y_plain (b : Ball) (T : Buffer)
    (h3 : pin_byte (b.x_left + Int.tdiv b.y 8 * DISPLAY_WIDTH) = 0)
    (h4 : pin_byte (b.x_right + Int.tdiv b.y 8 * DISPLAY_WIDTH) = 0)
    (hy : move_ball_y_in 896 b)
    (ht : b.pattern >>> (8 - b.speed).toNat > 0 ∨ b.page_changed = 0 ∨
      (pin_byte (b.x_left + Int.tdiv b.prev_page 8 * DISPLAY_WIDTH) = 0 ∧
        pin_byte (b.x_right + Int.tdiv b.prev_page 8 * DISPLAY_WIDTH) = 0)) :
    move_ball_y b (upper_pages ++ T) =
      ((move_ball_y b []).1,
        (if (move_ball_y b []).1.y ≥ DISPLAY_HEIGHT - 8 then upper_pages
          else draw_ball (move_ball_y b []).1 upper_pages) ++ T) := by
  have hL := (upper_get (b.x_left + Int.tdiv b.y 8 * DISPLAY_WIDTH)).trans h3
  have hR := (upper_get (b.x_right + Int.tdiv b.y 8 * DISPLAY_WIDTH)).trans h4
  rw [move_ball_y_append b _ T (by rw [upper_pages_length]; exact hy)]
  rw [move_ball_y_buffer, move_ball_y_ball b upper_pages [], erase_ball_zero b upper_pages hL hR]
  have he : (if b.pattern >>> (8 - b.speed).toNat > 0 ∨ b.page_changed = 0 then upper_pages
      else buf_clear (buf_clear upper_pages
          (b.x_left + Int.tdiv b.prev_page 8 * DISPLAY_WIDTH)
            (b.pattern <<< (8 - b.speed).toNat))
          (b.x_right + Int.tdiv b.prev_page 8 * DISPLAY_WIDTH)
            (b.pattern <<< (8 - b.speed).toNat)) = upper_pages := by
    split_ifs with c
    · rfl
    · have h5 : pin_byte (b.x_left + Int.tdiv b.prev_page 8 * DISPLAY_WIDTH) = 0 ∧
          pin_byte (b.x_right + Int.tdiv b.prev_page 8 * DISPLAY_WIDTH) = 0 := by
        rcases ht with ht | ht | ht
        · exact absurd (Or.inl ht) c
        · exact absurd (Or.inr ht) c
        · exact ht
      rw [buf_clear_zero upper_pages _ _ ((upper_get _).trans h5.1),
        buf_clear_zero upper_pages _ _ ((upper_get _).trans h5.2)]
  rw [he]

theorem first_check : check_collision new_ball upper_pages = 0 := by
  unfold check_collision
  simp only [upper_get]
  decide

/-- The first call of a drop: the pool ball, not drawn yet, over `upper_pages`. -/
theorem update_ball_first (T : Buffer) (chs : List Channel) (adc : Nat) :
    update_ball_in ssd1306_buffer_length new_ball (upper_pages ++ T) chs adc ∧
    update_ball new_ball (upper_pages ++ T) chs adc =
      (fall_ball 1, draw_ball (fall_ball 1) upper_pages ++ T, chs) := by
  have hc : check_collision new_ball (upper_pages ++ T) = 0 := by
    rw [check_collision_append _ _ _ (by rw [upper_pages_length]; decide) (Or.inl (by decide))]
    exact first_check
  have hact : ¬ new_ball.active = 0 := by decide
  have hy := move_ball_y_plain new_ball T (by decide) (by decide) (by decide)
    (Or.inr (Or.inl (by decide)))
  have hb : (move_ball_y new_ball []).1 = fall_ball 1 := by decide
  rw [hb, if_neg (by decide)] at hy
  constructor
  · unfold update_ball_in
    rw [if_neg hact, hc]
    simp only [ne_eq, not_true_eq_false, if_false]
    exact ⟨by decide, by decide, Or.inl trivial, by decide⟩
  · unfold update_ball
    rw [if_neg hact, hc]
    simp only [ne_eq, not_true_eq_false, if_false]
    rw [hy]

/-- The last move of a drop: from row 48 the ball reaches the base row, on
columns 77 and 78, or on 79 and 80 if a marker bit of page 7 deflects it;
pages 0 to 6 are left with the pins only. -/
theorem update_ball_last (T : Buffer) (chs : List Channel) (adc : Nat)
    (hadc : adc &&& 0x01 = 0) :
    update_ball_in ssd1306_buffer_length (fall_ball 54)
      (draw_ball (fall_ball 54) upper_pages ++ T) chs adc ∧
    ∃ x : Int, (x = 77 ∨ x = 79) ∧
      update_ball (fall_ball 54) (draw_ball (fall_ball 54) upper_pages ++ T) chs adc =
        (rest_ball x, upper_pages ++ T, chs) := by
  have hact : ¬ (fall_ball 54).active = 0 := by decide
  have hfree : sprite_free (fall_ball 54) := by decide
  have hfx : sprite_free (move_ball_x (fall_ball 54) [] 0).1 := by decide
  have hy := move_ball_y_draw (fall_ball 54) T hfree (by decide) (Or.inl (by decide))
  have hyx := move_ball_y_draw (move_ball_x (fall_ball 54) [] 0).1 T hfx (by decide)
    (Or.inl (by decide))
  have hb : (move_ball_y (fall_ball 54) []).1 = rest_ball 77 := by decide
  have hbx : (move_ball_y (move_ball_x (fall_ball 54) [] 0).1 []).1 = rest_ball 79 := by decide
  rw [hb, if_pos (by decide)] at hy
  rw [hbx, if_pos (by decide)] at hyx
  have hx := move_ball_x_draw (fall_ball 54) T hfree hfx
  by_cases hc : check_collision (fall_ball 54) (draw_ball (fall_ball 54) upper_pages ++ T) ≠ 0
  · constructor
    · unfold update_ball_in
      rw [if_neg hact, if_pos hc]
      simp only [hadc, Nat.cast_zero]
      rw [move_ball_x_ball (fall_ball 54) (draw_ball (fall_ball 54) upper_pages ++ T) [] 0]
      exact ⟨by decide, by decide, Or.inr (by decide), by decide⟩
    · refine ⟨79, Or.inr rfl, ?_⟩
      unfold update_ball
      rw [if_neg hact, if_pos hc]
      simp only [hadc, Nat.cast_zero]
      rw [hx]
      simp only []
      rw [hyx]
  · constructor
    · unfold update_ball_in
      rw [if_neg hact, if_neg hc]
      simp only []
      exact ⟨by decide, by decide, Or.inl (by simpa using hc), by decide⟩
    · refine ⟨77, Or.inl rfl, ?_⟩
      unfold update_ball
      rw [if_neg hact, if_neg hc]
      simp only []
      rw [hy]

theorem sim_update_eq (s : Sim) (k adc : Nat) :
    sim_update s k adc =
      with_ball s k (update_ball (s.balls.getD k default) s.display_buffer s.channels adc).1
        (update_ball (s.balls.getD k default) s.display_buffer s.channels adc).2.1
        (update_ball (s.balls.getD k default) s.display_buffer s.channels adc).2.2 := rfl

theorem with_ball_with (s : Sim) (k : Nat) (b1 b2 : Ball) (buf1 buf2 : Buffer)
    (chs1 chs2 : List Channel) :
    with_ball (with_ball s k b1 buf1 chs1) k b2 buf2 chs2 = with_ball s k b2 buf2 chs2 := by
  simp only [with_ball, List.set_set]

theorem with_ball_getD (s : Sim) (k : Nat) (b : Ball) (buf : Buffer) (chs : List Channel)
    (hk : k < s.balls.length) : (with_ball s k b buf chs).balls.getD k default = b := by
  simp only [with_ball]
  rw [List.getD_eq_getElem?_getD, List.getElem?_set_self hk]
  rfl

theorem with_ball_buffer (s : Sim) (k : Nat) (b : Ball) (buf : Buffer) (chs : List Channel) :
    (with_ball s k b buf chs).display_buffer = buf := rfl

theorem with_ball_channels (s : Sim) (k : Nat) (b : Ball) (buf : Buffer)
    (chs : List Channel) : (with_ball s k b buf chs).channels = chs := rfl

theorem with_ball_length (s : Sim) (k : Nat) (b : Ball) (buf : Buffer) (chs : List Channel) :
    (with_ball s k b buf chs).balls.length = s.balls.length := by
  simp only [with_ball, List.length_set]

theorem with_ball_getD_ne (s : Sim) (k j : Nat) (b : Ball) (buf : Buffer)
    (chs : List Channel) (hkj : k ≠ j) :
    (with_ball s k b buf chs).balls.getD j default = s.balls.getD j default := by
  simp only [with_ball, List.getD_eq_getElem?_getD]
  rw [List.getElem?_set_ne hkj]

theorem with_ball_self (s : Sim) (k : Nat) (hk : k < s.balls.length) :
    with_ball s k (s.balls.getD k default) s.display_buffer s.channels = s := by
  have : s.balls.set k (s.balls.getD k default) = s.balls := by
    rw [List.getD_eq_getElem _ _ hk]
    apply List.ext_getElem (List.length_set _ _ _)
    intro n h1 h2
    by_cases hn : k = n
    · subst hn
      rw [List.getElem_set_self]
    · rw [List.getElem_set_ne hn]
  simp only [with_ball, this]

theorem drop_ball_add (a b : Nat) (s : Sim) (k : Nat) (adc : Nat → Nat) :
    drop_ball (a + b) s k adc = drop_ball b (drop_ball a s k adc) k (fun i => adc (i + a)) := by
  induction a generalizing s adc with
  | zero => simp only [Nat.zero_add, drop_ball, Nat.add_zero]
  | succ m ih =>
    rw [show m + 1 + b = (m + b) + 1 by omega]
    simp only [drop_ball]
    rw [ih]
    simp only [Nat.add_assoc]

/-- The moves 2 to 54 of a drop with entropy 0 follow `fall_ball`. -/
theorem drop_ball_track (m : Nat) : ∀ (i : Nat) (s : Sim) (k : Nat) (adc : Nat → Nat)
    (T : Buffer) (chs : List Channel), 1 ≤ i → i + m ≤ 54 → k < s.balls.length →
    (∀ j, adc j &&& 0x01 = 0) →
    SafeReachable (fun a => a &&& 0x01 = 0)
      (with_ball s k (fall_ball i) (draw_ball (fall_ball i) upper_pages ++ T) chs) →
    drop_ball m (with_ball s k (fall_ball i) (draw_ball (fall_ball i) upper_pages ++ T) chs)
        k adc =
      with_ball s k (fall_ball (i + m)) (draw_ball (fall_ball (i + m)) upper_pages ++ T) chs ∧
    SafeReachable (fun a => a &&& 0x01 = 0)
      (with_ball s k (fall_ball (i + m))
        (draw_ball (fall_ball (i + m)) upper_pages ++ T) chs) := by
  induction m with
  | zero =>
    intro i s k adc T chs _ _ _ _ hs
    exact ⟨rfl, hs⟩
  | succ m ih =>
    intro i s k adc T chs hi him hk hadc hs
    obtain ⟨j, rfl⟩ : ∃ j, i = j + 1 := ⟨i - 1, by omega⟩
    obtain ⟨t1, t2, t3⟩ := fall_ball_track j (by omega)
    have hk2 : k < (with_ball s k (fall_ball (j + 1))
        (draw_ball (fall_ball (j + 1)) upper_pages ++ T) chs).balls.length := by
      rw [with_ball_length]; exact hk
    have hstep : sim_update (with_ball s k (fall_ball (j + 1))
        (draw_ball (fall_ball (j + 1)) upper_pages ++ T) chs) k (adc 0) =
        with_ball s k (fall_ball (j + 2)) (draw_ball (fall_ball (j + 2)) upper_pages ++ T)
          chs := by
      rw [sim_update_eq, with_ball_getD _ _ _ _ _ hk, with_ball_with, with_ball_buffer,
        with_ball_channels, update_ball_track _ T chs (adc 0) (hadc 0) t1, t2,
        if_neg (by omega)]
    have hs2 := SafeReachable.update k (adc 0) hs hk2 (hadc 0) (by
      rw [with_ball_getD _ _ _ _ _ hk, with_ball_buffer, with_ball_channels]
      exact update_ball_in_track _ T chs (adc 0) (hadc 0) t1)
    rw [hstep] at hs2
    simp only [drop_ball]
    rw [hstep]
    have := ih (j + 2) s k (fun i => adc (i + 1)) T chs (by omega) (by omega) hk
      (fun j => hadc (j + 1)) hs2
    rw [show j + 1 + (m + 1) = j + 2 + m by omega]
    exact this

/-- A whole drop with entropy 0: 56 calls of `update_ball` on a pool ball, from
a state whose pages 0 to 6 hold the pins only, register the ball in channel 5
and leave pages 0 to 6 as they were; every call keeps its array accesses in
range. -/
theorem drop_ball_full (s : Sim) (k n : Nat) (adc : Nat → Nat) (T : Buffer)
    (hk : k < s.balls.length) (hb : s.balls.getD k default = new_ball)
    (hT : T.length = 128) (hbuf : s.display_buffer = upper_pages ++ T)
    (hch : right_channels n s.channels) (hadc : ∀ j, adc j &&& 0x01 = 0)
    (hs : SafeReachable (fun a => a &&& 0x01 = 0) s) :
    SafeReachable (fun a => a &&& 0x01 = 0) (drop_ball 56 s k adc) ∧
    ∃ (x : Int) (T2 : Buffer) (chs2 : List Channel), (x = 77 ∨ x = 79) ∧ T2.length = 128 ∧
      right_channels (n + 1) chs2 ∧
      drop_ball 56 s k adc =
        with_ball s k { rest_ball x with channel := 5, registered := 1 }
          (upper_pages ++ T2) chs2 := by
  -- the first call
  obtain ⟨f1, f2⟩ := update_ball_first T s.channels (adc 0)
  have h1 : sim_update s k (adc 0) =
      with_ball s k (fall_ball 1) (draw_ball (fall_ball 1) upper_pages ++ T) s.channels := by
    rw [sim_update_eq, hb, hbuf, f2]
  have s1 := SafeReachable.update k (adc 0) hs hk (hadc 0) (by rw [hb, hbuf]; exact f1)
  rw [h1] at s1
  -- the calls 2 to 54
  obtain ⟨h54, s54⟩ := drop_ball_track 53 1 s k (fun i => adc (i + 1)) T s.channels
    (le_refl _) (le_refl _) hk (fun j => hadc (j + 1)) s1
  -- the last move
  obtain ⟨l1, x, hx, l2⟩ := update_ball_last T s.channels (adc 54) (hadc 54)
  have hk54 : k < (with_ball s k (fall_ball 54)
      (draw_ball (fall_ball 54) upper_pages ++ T) s.channels).balls.length := by
    rw [with_ball_length]; exact hk
  have h55 : sim_update (with_ball s k (fall_ball 54)
      (draw_ball (fall_ball 54) upper_pages ++ T) s.channels) k (adc 54) =
      with_ball s k (rest_ball x) (upper_pages ++ T) s.channels := by
    rw [sim_update_eq, with_ball_getD _ _ _ _ _ hk, with_ball_with, with_ball_buffer,
      with_ball_channels, l2]
  have s55 := SafeReachable.update k (adc 54) s54 hk54 (hadc 54) (by
    rw [with_ball_getD _ _ _ _ _ hk, with_ball_buffer, with_ball_channels]
    exact l1)
  rw [h55] at s55
  -- the registering call
  obtain ⟨r1, T2, chs2, hT2, hch2, r2⟩ := update_ball_land x hx T hT s.channels n hch (adc 55)
  have hk55 : k < (with_ball s k (rest_ball x) (upper_pages ++ T) s.channels).balls.length := by
    rw [with_ball_length]; exact hk
  have h56 : sim_update (with_ball s k (rest_ball x) (upper_pages ++ T) s.channels) k
      (adc 55) =
      with_ball s k { rest_ball x with channel := 5, registered := 1 }
        (upper_pages ++ T2) chs2 := by
    rw [sim_update_eq, with_ball_getD _ _ _ _ _ hk, with_ball_with, with_ball_buffer,
      with_ball_channels, r2]
  have s56 := SafeReachable.update k (adc 55) s55 hk55 (hadc 55) (by
    rw [with_ball_getD _ _ _ _ _ hk, with_ball_buffer, with_ball_channels]
    exact r1)
  rw [h56] at s56
  -- the 56 calls in a row
  have hall : drop_ball 56 s k adc =
      with_ball s k { rest_ball x with channel := 5, registered := 1 }
        (upper_pages ++ T2) chs2 := by
    rw [show (56 : Nat) = 1 + 53 + 2 from rfl, drop_ball_add, drop_ball_add]
    have e0 : drop_ball 1 s k adc = sim_update s k (adc 0) := rfl
    rw [e0, h1, h54]
    show sim_update (sim_update _ k (adc 54)) k (adc 55) = _
    rw [h55, h56]
  rw [hall]
  exact ⟨s56, x, T2, chs2, hx, hT2, hch2, rfl⟩

set_option maxRecDepth 1000000 in
set_option maxHeartbeats 4000000 in
theorem post_init_buffer_length : (draw_pins (init_channels buf_zero).2).length = 1024 := by
  decide!

theorem lit_pins :
    (∀ p ∈ [(192, 1), (316, 1), (324, 1), (440, 1), (448, 1), (456, 1), (564, 1), (572, 1),
       (580, 1), (588, 1), (688, 1), (696, 1), (704, 1), (712, 1), (720, 1), (812, 1),
       (820, 1), (828, 1), (836, 1), (844, 1), (852, 1), (932, 255), (940, 255),
       (948, 255), (956, 255), (964, 255), (972, 255), (980, 255), (988, 255)],
      p.1 < 896 → p.1 ∈ pin_bytes ∧ p.2 = 1) ∧
    (∀ k ∈ pin_bytes, (k, 1) ∈ [(192, 1), (316, 1), (324, 1), (440, 1), (448, 1), (456, 1),
       (564, 1), (572, 1),
       (580, 1), (588, 1), (688, 1), (696, 1), (704, 1), (712, 1), (720, 1), (812, 1),
       (820, 1), (828, 1), (836, 1), (844, 1), (852, 1), (932, 255), (940, 255),
       (948, 255), (956, 255), (964, 255), (972, 255), (980, 255), (988, 255)]) := by
  decide

/-- Pages 0 to 6 of the frame buffer `main` starts with are `upper_pages`. -/
theorem post_init_upper :
    (draw_pins (init_channels buf_zero).2).take 896 = upper_pages := by
  have hlit := post_init_buffer_lit
  have hlen := post_init_buffer_length
  generalize draw_pins (init_channels buf_zero).2 = B at hlit hlen
  apply List.ext_getElem
  · rw [List.length_take, hlen, upper_pages_length]; rfl
  · intro k h1 h2
    rw [upper_pages_length] at h2
    have hk : k < B.length := by omega
    rw [List.getElem_take]
    simp only [upper_pages, List.getElem_map, List.getElem_range]
    have hmem : (k, B[k]) ∈ B.enum :=
      List.mk_mem_enum_iff_getElem?.mpr (List.getElem?_eq_getElem hk)
    by_cases h0 : B[k] = 0
    · have hn : k ∉ pin_bytes := by
        intro hin
        have h3 := lit_pins.2 k hin
        rw [← hlit, List.mem_filter] at h3
        have h4 := List.mk_mem_enum_iff_getElem?.mp h3.1
        rw [List.getElem?_eq_getElem hk] at h4
        rw [h0] at h4
        exact absurd h4 (by decide)
      rw [h0, if_neg hn]
    · have h3 : (k, B[k]) ∈ B.enum.filter (fun p => p.2 ≠ 0) := by
        rw [List.mem_filter]
        exact ⟨hmem, by simpa using h0⟩
      rw [hlit] at h3
      obtain ⟨h4, h5⟩ := lit_pins.1 _ h3 h2
      rw [if_pos h4]
      exact h5

theorem seq_inv_init : seq_inv 0 main_init := by
  refine ⟨main_init_length, fun k hk => absurd hk (by omega), fun k _ hk => ?_, ?_, ?_⟩
  · rw [main_init_balls, TOTAL_BALLS_toNat, List.getD_eq_getElem?_getD,
      List.getElem?_replicate, if_pos hk]
    rfl
  · have hb : main_init.display_buffer = draw_pins (init_channels buf_zero).2 := by
      simp only [main_init, memset_zero]
    refine ⟨(draw_pins (init_channels buf_zero).2).drop 896, ?_, ?_⟩
    · rw [List.length_drop, post_init_buffer_length]
    · rw [hb, ← post_init_upper, List.take_append_drop]
  · have hc : main_init.channels = (init_channels buf_zero).1 := by
      simp only [main_init, memset_zero]
    rw [hc]
    refine ⟨init_channels_length, fun j hj => init_channels_cols j hj, fun j hj _ => ?_,
      ?_, ?_, ?_, ?_⟩
    · rw [init_channels_value]
      interval_cases j <;> rfl
    all_goals (rw [init_channels_value]; decide)

theorem seq_drop_inv (adc : Nat → Nat → Nat) (hadc : ∀ n i, adc n i &&& 0x01 = 0) :
    ∀ n : Nat, n ≤ 1000 →
      seq_inv n (seq_drop adc n) ∧
      SafeReachable (fun a => a &&& 0x01 = 0) (seq_drop adc n) := by
  intro n
  induction n with
  | zero => exact fun _ => ⟨seq_inv_init, SafeReachable.init⟩
  | succ n ih =>
    intro hn
    obtain ⟨⟨i1, i2, i3, ⟨T, hT, hbuf⟩, i5⟩, hs⟩ := ih (by omega)
    obtain ⟨d1, x, T2, chs2, hx, hT2, hch2, d2⟩ := drop_ball_full (seq_drop adc n) n n (adc n)
      T (by omega) (i3 n (le_refl _) (by omega)) hT hbuf i5 (hadc n) hs
    simp only [seq_drop]
    refine ⟨?_, d1⟩
    rw [d2]
    refine ⟨by rw [with_ball_length]; exact i1, fun k hk => ?_,
      fun k hk1 hk2 => ?_, ⟨T2, hT2, rfl⟩, hch2⟩
    · by_cases hkn : k = n
      · subst hkn
        rw [with_ball_getD _ _ _ _ _ (by omega)]
        exact ⟨rfl, rfl, rfl, hx⟩
      · rw [with_ball_getD_ne _ _ _ _ _ _ (Ne.symm hkn)]
        exact i2 k (by omega)
    · rw [with_ball_getD_ne _ _ _ _ _ _ (by omega)]
      exact i3 k (by omega) hk2

/-- The runs used as concrete instances below: with `adc_read()` always 0, the
state after one drop and the state after 1000 drops. -/
theorem seq_drop_facts :
    SafeReachable (fun a => a &&& 0x01 = 0) (seq_drop (fun _ _ => 0) 1) ∧
    ((seq_drop (fun _ _ => 0) 1).balls.getD 0 default).registered = 1 ∧
    ((seq_drop (fun _ _ => 0) 1).balls.getD 0 default).channel = 5 ∧
    ((seq_drop (fun _ _ => 0) 1).channels.getD 5 default).ball_count = 1 ∧
    ((seq_drop (fun _ _ => 0) 1).channels.getD 0 default).ball_count = 0 ∧
    ((seq_drop (fun _ _ => 0) 1000).channels.getD 5 default).ball_count = 1000 ∧
    ((seq_drop (fun _ _ => 0) 1000).channels.getD 0 default).ball_count = 0 := by
  obtain ⟨⟨-, a2, -, -, -, -, a7, a8, -⟩, a0⟩ :=
    seq_drop_inv (fun _ _ => 0) (fun _ _ => Nat.zero_and 1) 1 (by decide)
  obtain ⟨⟨-, -, -, -, -, -, b7, b8, -⟩, -⟩ :=
    seq_drop_inv (fun _ _ => 0) (fun _ _ => Nat.zero_and 1) 1000 (le_refl _)
  refine ⟨a0, (a2 0 (by decide)).1, (a2 0 (by decide)).2.1, ?_, a7 0 (by decide) (by decide),
    ?_, b7 0 (by decide) (by decide)⟩
  · rw [a8]; rfl
  · rw [b8]; rfl

/-! ## The claims -/

/-- Claim C2, the code at the failing input. For every entropy stream, every
button input and every text routine, 1000 passes through the loop body of
`main` from the initial state leave the cursor at the pool end
(`current_ball >= TOTAL_BALLS`) while the pool still holds 1000 balls, each
with `registered = 0` and still active: the cursor reaches the pool end with
no ball resolved. -/
theorem main_single_pass_unregistered (draw_string : Buffer → Int → Int → String → Buffer)
    (gpio : Nat → Int × Int) (adc : Nat → Nat) :
    (main_run draw_string gpio adc 1000).current_ball ≥ TOTAL_BALLS ∧
    (main_run draw_string gpio adc 1000).balls.length = 1000 ∧
    ∀ b ∈ (main_run draw_string gpio adc 1000).balls, b.registered = 0 ∧ b.active = 1 := by
  obtain ⟨h1, h2, -, h4, -⟩ := main_run_inv draw_string gpio adc 1000 (le_refl _)
  refine ⟨?_, h2, h4⟩
  rw [h1]
  decide

/-- Claim C4. For a ball created by `init_balls` and advanced by any sequence of
`update_ball` calls (any frame buffer, any channels, any entropy), `y` does not
decrease over the next `update_ball` call, and whenever the ball is inactive
its `y` equals `DISPLAY_HEIGHT - 8`. -/
theorem ball_y_monotone_and_terminal (b : Ball) (h : BallReachable b)
    (buffer : Buffer) (channels : List Channel) (adc : Nat) :
    b.y ≤ (update_ball b buffer channels adc).1.y ∧
    (b.active = 0 → b.y = DISPLAY_HEIGHT - 8) := by
  obtain ⟨-, -, i3, -⟩ := fall_inv_reachable b h
  obtain ⟨u1, u2⟩ := update_ball_y b buffer channels adc
  refine ⟨?_, fun h0 => by rw [i3 h0]; decide⟩
  by_cases hact : b.active = 0
  · rw [(u1 hact).1]
  · rcases (u2 hact).1 with v | v <;> rw [v]
    omega

/-- Claim C4, witness: the property at the ball obtained from the `init_balls`
value by one `update_ball` call on the zeroed frame buffer. -/
theorem ball_y_monotone_and_terminal_witness :
    BallReachable (update_ball new_ball buf_zero [] 0).1 ∧
    ((update_ball new_ball buf_zero [] 0).1.y ≤
        (update_ball (update_ball new_ball buf_zero [] 0).1 buf_zero [] 1).1.y ∧
      ((update_ball new_ball buf_zero [] 0).1.active = 0 →
        (update_ball new_ball buf_zero [] 0).1.y = DISPLAY_HEIGHT - 8)) :=
  ⟨BallReachable.update buf_zero [] 0 BallReachable.init,
   ball_y_monotone_and_terminal _ (BallReachable.update buf_zero [] 0 BallReachable.init)
     buf_zero [] 1⟩

/-- Claim C5. With the channels built by `init_channels`, for every inactive,
unassigned ball with `x_right = x_left + 1`, `36 <= x_left` and
`x_right <= 100`, exactly one channel passes the containment test, and
`update_ball` assigns the ball the index of that channel. -/
theorem channel_scan_total (ball : Ball) (buffer buf0 : Buffer) (adc : Nat)
    (ha : ball.active = 0) (hc : ball.channel = -1) (hx : ball.x_right = ball.x_left + 1)
    (h1 : 36 ≤ ball.x_left) (h2 : ball.x_right ≤ 100) :
    ∃ i : Nat, i < (init_channels buf0).1.length ∧
      in_channel ball ((init_channels buf0).1.getD i default) ∧
      (∀ j : Nat, j < (init_channels buf0).1.length →
        in_channel ball ((init_channels buf0).1.getD j default) → j = i) ∧
      (update_ball ball buffer (init_channels buf0).1 adc).1.channel = (i : Int) := by
  rw [init_channels_fst buf0, init_channels_length]
  have hin : ∀ j : Nat, j < 8 →
      (in_channel ball ((init_channels buf_zero).1.getD j default) ↔
        36 + 8 * (j : Int) ≤ ball.x_left ∧ ball.x_left + 1 ≤ 44 + 8 * (j : Int)) := by
    intro j hj
    obtain ⟨c1, c2⟩ := init_channels_cols j hj
    simp only [in_channel, c1, c2, hx, ge_iff_le]
  obtain ⟨k, hk⟩ : ∃ k : Nat, (k : Int) = (ball.x_left - 36) / 8 :=
    ⟨((ball.x_left - 36) / 8).toNat, by omega⟩
  have hk8 : k < 8 := by omega
  have hkin : in_channel ball ((init_channels buf_zero).1.getD k default) :=
    (hin k hk8).2 (by omega)
  have huniq : ∀ j : Nat, j < 8 →
      in_channel ball ((init_channels buf_zero).1.getD j default) → j = k := by
    intro j hj hj2
    have := (hin j hj).1 hj2
    omega
  refine ⟨k, hk8, hkin, huniq, ?_⟩
  have hu : (update_ball ball buffer (init_channels buf_zero).1 adc).1.channel =
      (scan_channels ball (init_channels buf_zero).1 0).1.channel := by
    unfold update_ball
    simp only [ha, hc, if_true]
    exact (register_ball_fields _ _ _).2.2.1
  rw [hu, scan_channels_first ball _ 0 k (by rw [init_channels_length]; exact hk8) hkin
    (fun j hj hj2 => by have := huniq j (by omega) hj2; omega)]
  simp

/-- Claim C5, witness: a ball resting on columns 75 and 76, the last two
columns of channel 4. -/
theorem channel_scan_total_witness :
    ∃ i : Nat, i < (init_channels buf_zero).1.length ∧
      in_channel { new_ball with x_left := 75, x_right := 76, y := 56, active := 0 }
        ((init_channels buf_zero).1.getD i default) ∧
      (∀ j : Nat, j < (init_channels buf_zero).1.length →
        in_channel { new_ball with x_left := 75, x_right := 76, y := 56, active := 0 }
          ((init_channels buf_zero).1.getD j default) → j = i) ∧
      (update_ball { new_ball with x_left := 75, x_right := 76, y := 56, active := 0 }
        buf_zero (init_channels buf_zero).1 0).1.channel = (i : Int) :=
  channel_scan_total { new_ball with x_left := 75, x_right := 76, y := 56, active := 0 }
    buf_zero buf_zero 0 rfl rfl rfl (by decide) (by decide)

/-- Claim C6. For every prior state, `reset_simulation` (called with the pool
size) leaves every one of the 8 channels with `ball_count = 0`, leaves the frame
buffer equal to the post-initialisation frame buffer (the zeroed buffer after
`init_channels` and `draw_pins`, which is the frame buffer `main` starts
with), and leaves every ball equal to its `init_balls` value. -/
theorem reset_simulation_restores (s : Sim) :
    (∀ c ∈ (reset_simulation s s.balls.length).channels, c.ball_count = 0) ∧
    (reset_simulation s s.balls.length).channels.length = 8 ∧
    (reset_simulation s s.balls.length).display_buffer = draw_pins (init_channels buf_zero).2 ∧
    (reset_simulation s s.balls.length).display_buffer = main_init.display_buffer ∧
    (reset_simulation s s.balls.length).balls = List.replicate s.balls.length new_ball := by
  refine ⟨?_, ?_, ?_, ?_, ?_⟩
  · simp only [reset_simulation, memset_zero]
    rw [init_channels_value]
    decide
  · simp only [reset_simulation, memset_zero]
    exact init_channels_length
  · simp only [reset_simulation, memset_zero]
  · simp only [reset_simulation, main_init, memset_zero]
  · simp only [reset_simulation]
    exact init_balls_all _

/-- Claim C7. For every text routine, every channel state and every starting
frame buffer, calling `show_distribution` a second time on the result of a
first call produces the same frame buffer as the first call. -/
theorem show_distribution_idempotent (draw_string : Buffer → Int → Int → String → Buffer)
    (channels : List Channel) (buffer : Buffer) :
    (show_distribution draw_string (show_distribution draw_string channels buffer).1
        (show_distribution draw_string channels buffer).2).2 =
      (show_distribution draw_string channels buffer).2 := by
  have key : ∀ (l : List Channel) (b : Buffer),
      l.map channel_frame = channels.map channel_frame →
      (show_distribution draw_string l b).2 =
        (show_distribution draw_string channels buffer).2 := by
    intro l b hl
    unfold show_distribution
    simp only [memset_zero]
    rw [draw_counts_congr draw_string l channels 0 buf_zero hl]
    exact dist_channels_congr _ _ _ hl
  exact key _ _ (show_distribution_frame draw_string channels buffer)

/-- Claim C8, the code at the failing input. `init_channels` starts
`current_col` of the four left-half channels at `end_col` (44, 52, 60, 68),
while `show_distribution` restarts it at `end_col - 1`: on the freshly built
channels the call moves `current_col` of channel 0 from 44 to 43, and likewise
channels 1, 2, 3 to 51, 59, 67; the right-half channels, which `init_channels`
starts at `start_col` as `show_distribution` does, keep their value. The same
happens after a ball at rest on columns 77 and 78 has been registered (in
channel 5, whose `current_col` 77 is kept). -/
theorem show_distribution_moves_current_col :
    ((init_channels buf_zero).1.getD 0 default).current_col = 44 ∧
    ((show_distribution (fun b _ _ _ => b) (init_channels buf_zero).1 buf_zero).1.getD 0
      default).current_col = 43 ∧
    (init_channels buf_zero).1.map (fun c => c.current_col) =
      [44, 52, 60, 68, 68, 76, 84, 92] ∧
    (init_channels buf_zero).1.map (fun c => c.end_col - 1) =
      [43, 51, 59, 67, 75, 83, 91, 99] ∧
    (show_distribution (fun b _ _ _ => b) (init_channels buf_zero).1 buf_zero).1.map
      (fun c => c.current_col) = [43, 51, 59, 67, 68, 76, 84, 92] ∧
    (update_ball (rest_ball 77) buf_zero (init_channels buf_zero).1 0).2.2.map
      (fun c => (c.current_col, c.ball_count)) =
      [(44, 0), (52, 0), (60, 0), (68, 0), (68, 0), (77, 1), (84, 0), (92, 0)] ∧
    (show_distribution (fun b _ _ _ => b)
      (update_ball (rest_ball 77) buf_zero (init_channels buf_zero).1 0).2.2 buf_zero).1.map
      (fun c => (c.current_col, c.ball_count)) =
      [(43, 0), (51, 0), (59, 0), (67, 0), (68, 0), (77, 1), (84, 0), (92, 0)] := by
  rw [init_channels_value]
  decide

/-- What `show_distribution` keeps: a call (with its marker writes in range)
leaves every ball unchanged, keeps the number of channels, and leaves
`start_col`, `end_col`, `bit_positions` and `ball_count` of every channel
unchanged; only `current_col` and the frame buffer are rewritten. -/
theorem show_distribution_frame_effect (draw_string : Buffer → Int → Int → String → Buffer)
    (s : Sim) :
    (sim_distribution draw_string s).balls = s.balls ∧
    (sim_distribution draw_string s).channels.length = s.channels.length ∧
    ∀ i : Nat,
      ((sim_distribution draw_string s).channels.getD i default).start_col =
        (s.channels.getD i default).start_col ∧
      ((sim_distribution draw_string s).channels.getD i default).end_col =
        (s.channels.getD i default).end_col ∧
      ((sim_distribution draw_string s).channels.getD i default).bit_positions =
        (s.channels.getD i default).bit_positions ∧
      ((sim_distribution draw_string s).channels.getD i default).ball_count =
        (s.channels.getD i default).ball_count := by
  have hf := show_distribution_frame draw_string s.channels s.display_buffer
  refine ⟨rfl, ?_, ?_⟩
  · have := congrArg List.length hf
    simpa using this
  · intro i
    have := channel_frame_getD _ _ hf i
    simp only [sim_distribution]
    generalize (show_distribution draw_string s.channels s.display_buffer).1.getD i default = a
      at this
    generalize s.channels.getD i default = b at this
    cases a
    cases b
    simp only [channel_frame, Channel.mk.injEq] at this
    obtain ⟨h1, h2, -, h4, h5⟩ := this
    exact ⟨h1, h2, h4, h5⟩

/-- Claim C9, counterexample. On channel 4 of the freshly built channels the
second marker (index 1) is written at column 69 by both routines, with mask
`0x80` by `register_ball` and mask `0x40` by `show_distribution`. -/
theorem markers_differ_in_mask :
    (register_nth_marker 4 1).col = 69 ∧ (dist_nth_marker 4 2 1).col = 69 ∧
    (register_nth_marker 4 1).mask = 0x80 ∧ (dist_nth_marker 4 2 1).mask = 0x40 := by
  decide

/-- Claim C9, amended. For every right-half channel built by `init_channels`
(indices 4 to 7) and every `j < n`, marker `j` written by `show_distribution`
for `ball_count = n` is at the same column as the marker written by call `j`
of `register_ball` on the freshly built channel, and the first markers of both
carry the same bit mask. -/
theorem markers_same_column_right_half (i : Nat) (h4 : 4 ≤ i) (h8 : i < 8) (n : Int) (j : Nat)
    (hj : (j : Int) < n) :
    (dist_nth_marker i n j).col = (register_nth_marker i j).col ∧
    (dist_nth_marker i n 0).mask = (register_nth_marker i 0).mask := by
  obtain ⟨-, -, -, -, -, a6⟩ := markers_columns_aux i h4 h8 n j (le_of_lt hj)
  obtain ⟨-, -, g3⟩ := init_channels_right_half i h4 h8
  constructor
  · simp only [dist_nth_marker, register_nth_marker, dist_marker, register_marker]
    exact a6.symm
  · simp only [register_nth_marker, register_times, g3]
    rfl

/-- Claim C9, witness: channel 5, `ball_count = 20`, marker 9. -/
theorem markers_same_column_right_half_witness :
    (4 : Nat) ≤ 5 ∧ (5 : Nat) < 8 ∧ ((9 : Nat) : Int) < 20 ∧
    ((dist_nth_marker 5 20 9).col = (register_nth_marker 5 9).col ∧
      (dist_nth_marker 5 20 0).mask = (register_nth_marker 5 0).mask) :=
  ⟨by decide, by decide, by decide,
   markers_same_column_right_half 5 (by decide) (by decide) 20 9 (by decide)⟩

/-- Claim C10, counterexample. Channel 4 of the freshly built channels is a
right-half channel (`start_col = 68 > 64`) and one `register_ball` landing
moves its `current_col` from 68 to 69, rightward. -/
theorem right_half_channel_sweeps_right :
    ((init_channels buf_zero).1.getD 4 default).start_col > Int.tdiv DISPLAY_WIDTH 2 ∧
    ((init_channels buf_zero).1.getD 4 default).current_col = 68 ∧
    ((register_ball (landed_ball 4) buf_zero (init_channels buf_zero).1).2.2.getD 4
      default).current_col = 69 := by
  rw [init_channels_value]
  decide

/-- Claim C10, amended. A `register_ball` landing on a left-half channel
(`start_col <= DISPLAY_WIDTH/2`) moves `current_col` leftward, down by 1, or
wraps it to `end_col - 1` when that would reach `start_col`; on a right-half
channel it moves `current_col` rightward, up by 1, or wraps it to
`start_col + 1` when that would reach `end_col`. -/
theorem register_ball_sweep (ball : Ball) (buffer : Buffer) (channels : List Channel)
    (i : Nat) (hi : i < channels.length) (hc : ball.channel = (i : Int))
    (hr : ball.registered = 0) :
    ((channels.getD i default).start_col ≤ Int.tdiv DISPLAY_WIDTH 2 →
      ((register_ball ball buffer channels).2.2.getD i default).current_col =
        if (channels.getD i default).current_col - 1 ≤ (channels.getD i default).start_col
        then (channels.getD i default).end_col - 1
        else (channels.getD i default).current_col - 1) ∧
    ((channels.getD i default).start_col > Int.tdiv DISPLAY_WIDTH 2 →
      ((register_ball ball buffer channels).2.2.getD i default).current_col =
        if (channels.getD i default).current_col + 1 ≥ (channels.getD i default).end_col
        then (channels.getD i default).start_col + 1
        else (channels.getD i default).current_col + 1) := by
  obtain ⟨-, -, -, r4⟩ := register_ball_channel ball buffer channels i hi hc hr
  constructor
  · intro h
    rw [r4, if_neg (by omega)]
  · intro h
    rw [r4, if_pos h]

/-- Claim C10, witness: a landing on channel 5 of the freshly built channels. -/
theorem register_ball_sweep_witness :
    ((((init_channels buf_zero).1).getD 5 default).start_col ≤ Int.tdiv DISPLAY_WIDTH 2 →
      ((register_ball (landed_ball 5) buf_zero (init_channels buf_zero).1).2.2.getD 5
        default).current_col =
        if (((init_channels buf_zero).1).getD 5 default).current_col - 1 ≤
            (((init_channels buf_zero).1).getD 5 default).start_col
        then (((init_channels buf_zero).1).getD 5 default).end_col - 1
        else (((init_channels buf_zero).1).getD 5 default).current_col - 1) ∧
    ((((init_channels buf_zero).1).getD 5 default).start_col > Int.tdiv DISPLAY_WIDTH 2 →
      ((register_ball (landed_ball 5) buf_zero (init_channels buf_zero).1).2.2.getD 5
        default).current_col =
        if (((init_channels buf_zero).1).getD 5 default).current_col + 1 ≥
            (((init_channels buf_zero).1).getD 5 default).end_col
        then (((init_channels buf_zero).1).getD 5 default).start_col + 1
        else (((init_channels buf_zero).1).getD 5 default).current_col + 1) :=
  register_ball_sweep (landed_ball 5) buf_zero (init_channels buf_zero).1 5
    (by rw [init_channels_length]; decide) rfl rfl

/-- Claim C11, counterexample. Column 44 lies in the inclusive span of channel
0 (36..44) and in the inclusive span of channel 1 (44..52) of the freshly built
channels. -/
theorem adjacent_channels_share_column :
    in_span ((init_channels buf_zero).1.getD 0 default) 44 ∧
    in_span ((init_channels buf_zero).1.getD 1 default) 44 := by
  rw [init_channels_value]
  exact ⟨⟨by decide, by decide⟩, ⟨by decide, by decide⟩⟩

/-- Claim C11, amended. Two distinct channels `i < j` built by `init_channels`
share a column exactly when they are neighbours (`j = i + 1`), and then they
share exactly one column: a column lies in both inclusive spans if and only if
`j = i + 1` and the column is `end_col` of channel `i`; and for every pair of
neighbours that column is also `start_col` of channel `i + 1` and does lie in
both spans. -/
theorem channels_share_only_boundary (buf0 : Buffer) (i j : Nat) (hij : i < j)
    (hj : j < (init_channels buf0).1.length) :
    (∀ col : Int,
      (in_span ((init_channels buf0).1.getD i default) col ∧
        in_span ((init_channels buf0).1.getD j default) col) ↔
      (j = i + 1 ∧ col = ((init_channels buf0).1.getD i default).end_col)) ∧
    (j = i + 1 →
      ((init_channels buf0).1.getD i default).end_col =
        ((init_channels buf0).1.getD j default).start_col ∧
      in_span ((init_channels buf0).1.getD i default)
        ((init_channels buf0).1.getD i default).end_col ∧
      in_span ((init_channels buf0).1.getD j default)
        ((init_channels buf0).1.getD i default).end_col) := by
  rw [init_channels_fst buf0] at hj ⊢
  rw [init_channels_length] at hj
  obtain ⟨a1, a2⟩ := init_channels_cols i (by omega)
  obtain ⟨b1, b2⟩ := init_channels_cols j hj
  simp only [in_span, a1, a2, b1, b2]
  refine ⟨fun col => ⟨fun h => ?_, fun h => ?_⟩, fun h => ?_⟩
  · omega
  · omega
  · omega

/-- Claim C11, witness: channels 0 and 1, which share column 44 and no other. -/
theorem channels_share_only_boundary_witness :
    (0 : Nat) < 1 ∧ 1 < (init_channels buf_zero).1.length ∧
    ((∀ col : Int,
      (in_span ((init_channels buf_zero).1.getD 0 default) col ∧
        in_span ((init_channels buf_zero).1.getD 1 default) col) ↔
      (1 = 0 + 1 ∧ col = ((init_channels buf_zero).1.getD 0 default).end_col)) ∧
    (1 = 0 + 1 →
      ((init_channels buf_zero).1.getD 0 default).end_col =
        ((init_channels buf_zero).1.getD 1 default).start_col ∧
      in_span ((init_channels buf_zero).1.getD 0 default)
        ((init_channels buf_zero).1.getD 0 default).end_col ∧
      in_span ((init_channels buf_zero).1.getD 1 default)
        ((init_channels buf_zero).1.getD 0 default).end_col)) :=
  ⟨by decide, by rw [init_channels_length]; decide,
   channels_share_only_boundary buf_zero 0 1 (by decide)
     (by rw [init_channels_length]; decide)⟩

set_option maxRecDepth 1000000 in
set_option maxHeartbeats 4000000 in
/-- Claim C13, the code at the failing input. A ball deflected eight times to
the right and then once to the left (entropy bits 0,0,0,0,0,0,0,0,1 on a fully
lit frame buffer, then a free fall) ends its 55 updates inactive and
unassigned on `x_left = 77`, `x_right = 76`; the channel scan of the next
`update_ball` call assigns it channel 4, whose span is 68..76 and does not
contain column 77. -/
theorem flipped_ball_assigned_outside_span :
    (ball_after (fun t => if t < 9 then buf_full else buf_zero)
      (fun _ => (init_channels buf_zero).1) (fun t => if t < 8 then 0 else 1) 55).active = 0 ∧
    (ball_after (fun t => if t < 9 then buf_full else buf_zero)
      (fun _ => (init_channels buf_zero).1) (fun t => if t < 8 then 0 else 1) 55).channel
        = -1 ∧
    (ball_after (fun t => if t < 9 then buf_full else buf_zero)
      (fun _ => (init_channels buf_zero).1) (fun t => if t < 8 then 0 else 1) 55).x_left
        = 77 ∧
    (ball_after (fun t => if t < 9 then buf_full else buf_zero)
      (fun _ => (init_channels buf_zero).1) (fun t => if t < 8 then 0 else 1) 55).x_right
        = 76 ∧
    (update_ball
      (ball_after (fun t => if t < 9 then buf_full else buf_zero)
        (fun _ => (init_channels buf_zero).1) (fun t => if t < 8 then 0 else 1) 55)
      buf_zero (init_channels buf_zero).1 0).1.channel = 4 ∧
    ((init_channels buf_zero).1.getD 4 default).start_col = 68 ∧
    ((init_channels buf_zero).1.getD 4 default).end_col = 76 := by
  refine ⟨by rfl, by rfl, by rfl, by rfl, by rfl, by rfl, by rfl⟩

/-- Claim C14, the code at the failing input. With a nonzero direction
`move_ball_x` sets `x_left` to `x_left - 2` and `x_right` to `x_left - 3`: the
`init_balls` sprite on columns 63 and 64 goes to `x_left = 61`, `x_right = 60`,
so `x_left` moves by 2, `x_right` by 4, and `x_right = x_left + 1` no longer
holds. -/
theorem move_ball_x_left_splits_sprite (ball : Ball) (buffer : Buffer) :
    (move_ball_x ball buffer 1).1.x_left = ball.x_left - 2 ∧
    (move_ball_x ball buffer 1).1.x_right = ball.x_left - 2 - 1 ∧
    new_ball.x_left = 63 ∧ new_ball.x_right = 64 ∧
    (move_ball_x new_ball buf_zero 1).1.x_left = 61 ∧
    (move_ball_x new_ball buf_zero 1).1.x_right = 60 := by
  refine ⟨?_, ?_, by decide, by decide, by decide, by decide⟩
  · simp [move_ball_x]
  · simp [move_ball_x]

set_option maxRecDepth 1000000 in
set_option maxHeartbeats 4000000 in
/-- Claim C15, counterexample. A ball falling over the initial frame buffer
(pins and dividers) is, after six updates, active on `x_left = 63` with
pattern `0xC0`, and `check_collision` reports a collision with the pin at
column 64 of row 8; the seventh `update_ball` call with `adc_read() = 0` leaves
it on `x_left = 65`, to the right. -/
theorem false_entropy_moves_right_example :
    (ball_after (fun _ => draw_pins (init_channels buf_zero).2) (fun _ => [])
      (fun _ => 0) 6).active = 1 ∧
    (ball_after (fun _ => draw_pins (init_channels buf_zero).2) (fun _ => [])
      (fun _ => 0) 6).x_left = 63 ∧
    (ball_after (fun _ => draw_pins (init_channels buf_zero).2) (fun _ => [])
      (fun _ => 0) 6).pattern = 0xC0 ∧
    check_collision
      (ball_after (fun _ => draw_pins (init_channels buf_zero).2) (fun _ => [])
        (fun _ => 0) 6)
      (draw_pins (init_channels buf_zero).2) = 1 ∧
    (0 &&& 0x01 : Nat) = 0 ∧
    (ball_after (fun _ => draw_pins (init_channels buf_zero).2) (fun _ => [])
      (fun _ => 0) 7).x_left = 65 := by
  refine ⟨by rfl, by rfl, by rfl, by rfl, by rfl, by rfl⟩

/-- Claim C15, amended. For every active ball for which `check_collision`
reports a collision, `update_ball` moves `x_left` up by 2 (to the right) when
`adc_read() & 0x01` is 0, and down by 2 (to the left) when it is not. -/
theorem false_entropy_deflects_right (ball : Ball) (buffer : Buffer) (channels : List Channel)
    (adc : Nat) (ha : ball.active ≠ 0) (hcol : check_collision ball buffer ≠ 0) :
    (adc &&& 0x01 = 0 →
      (update_ball ball buffer channels adc).1.x_left = ball.x_left + 2) ∧
    (adc &&& 0x01 ≠ 0 →
      (update_ball ball buffer channels adc).1.x_left = ball.x_left - 2) := by
  rw [update_ball_x_left ball buffer channels adc ha hcol]
  constructor
  · intro h
    rw [h]
    simp [move_ball_x]
  · intro h
    have : ((adc &&& 0x01 : Nat) : Int) ≠ 0 := by exact_mod_cast h
    generalize ((adc &&& 0x01 : Nat) : Int) = d at this
    simp [move_ball_x, this]

set_option maxRecDepth 1000000 in
set_option maxHeartbeats 4000000 in
/-- Claim C15, witness: the seventh update of a ball falling over the initial
frame buffer, where it meets the first pin, with `adc_read() = 0`. -/
theorem false_entropy_deflects_right_witness :
    ((0 &&& 0x01 : Nat) = 0 →
      (update_ball
        (ball_after (fun _ => draw_pins (init_channels buf_zero).2) (fun _ => [])
          (fun _ => 0) 6)
        (draw_pins (init_channels buf_zero).2) [] 0).1.x_left =
      (ball_after (fun _ => draw_pins (init_channels buf_zero).2) (fun _ => [])
        (fun _ => 0) 6).x_left + 2) ∧
    ((0 &&& 0x01 : Nat) ≠ 0 →
      (update_ball
        (ball_after (fun _ => draw_pins (init_channels buf_zero).2) (fun _ => [])
          (fun _ => 0) 6)
        (draw_pins (init_channels buf_zero).2) [] 0).1.x_left =
      (ball_after (fun _ => draw_pins (init_channels buf_zero).2) (fun _ => [])
        (fun _ => 0) 6).x_left - 2) :=
  false_entropy_deflects_right
    (ball_after (fun _ => draw_pins (init_channels buf_zero).2) (fun _ => []) (fun _ => 0) 6)
    (draw_pins (init_channels buf_zero).2) [] 0
    (by rw [show (ball_after (fun _ => draw_pins (init_channels buf_zero).2) (fun _ => [])
      (fun _ => 0) 6).active = 1 from by rfl]; decide)
    (by rw [show check_collision
      (ball_after (fun _ => draw_pins (init_channels buf_zero).2) (fun _ => [])
        (fun _ => 0) 6) (draw_pins (init_channels buf_zero).2) = 1 from by rfl]; decide)

/-- Claim C16, counterexample. On channel 4 with `ball_count = 10` the markers
of landings 0 and 8 are both written to page 7. -/
theorem dist_page_same_after_8 :
    (dist_nth_marker 4 10 0).page = 7 ∧ (dist_nth_marker 4 10 8).page = 7 := by
  decide

/-- Claim C16, amended. In histogram mode the marker stack moves to a new page
every 64 landings: for `j + 64 < 512` the page written for landing `j` is
`7 - j / 64`, and the page written for landing `j + 64` is one less. -/
theorem dist_page_every_64 (channel : Channel) (j : Nat) (hj : j + 64 < 512) :
    (dist_marker channel j).page = 7 - (j : Int) / 64 ∧
    (dist_marker channel ((j + 64 : Nat) : Int)).page = (dist_marker channel j).page - 1 := by
  have h1 : ∀ k : Nat, k < 512 → (dist_marker channel k).page = 7 - (k : Int) / 64 := by
    intro k hk
    simp only [dist_marker, DISPLAY_HEIGHT]
    have e1 : Int.tdiv (k : Int) 8 = (k : Int) / 8 :=
      Int.tdiv_eq_ediv (by omega) (by decide)
    rw [e1, Int.tdiv_eq_ediv (by omega) (by decide)]
    omega
  rw [h1 j (by omega), h1 (j + 64) hj]
  push_cast
  omega

/-- Claim C16, witness: channel 4 and landing 0. -/
theorem dist_page_every_64_witness :
    (0 : Nat) + 64 < 512 ∧
    ((dist_marker ((init_channels buf_zero).1.getD 4 default) (0 : Nat)).page
        = 7 - ((0 : Nat) : Int) / 64 ∧
      (dist_marker ((init_channels buf_zero).1.getD 4 default) ((0 + 64 : Nat) : Int)).page =
        (dist_marker ((init_channels buf_zero).1.getD 4 default) (0 : Nat)).page - 1) :=
  ⟨by decide, dist_page_every_64 _ 0 (by decide)⟩

set_option maxRecDepth 100000 in
set_option maxHeartbeats 4000000 in
/-- Claim C17, the code at the failing input. After the first `update_ball` call
on a zeroed frame buffer the ball (speed 1, pattern `0x06`, columns 63 and 64,
`y = 0`) is drawn as the only lit bytes of the frame buffer, `0x06` at columns
63 and 64 of page 0, and `check_collision` on that ball and frame buffer
returns 1. -/
theorem ball_collides_with_own_sprite :
    BallReachable (update_ball new_ball buf_zero [] 0).1 ∧
    (update_ball new_ball buf_zero [] 0).1.speed = 1 ∧
    (update_ball new_ball buf_zero [] 0).1.pattern = 6 ∧
    (update_ball new_ball buf_zero [] 0).1.x_left = 63 ∧
    (update_ball new_ball buf_zero [] 0).1.x_right = 64 ∧
    (update_ball new_ball buf_zero [] 0).1.y = 0 ∧
    (update_ball new_ball buf_zero [] 0).1.active = 1 ∧
    (update_ball new_ball buf_zero [] 0).2.1.enum.filter (fun p => p.2 ≠ 0) =
      [(63, 6), (64, 6)] ∧
    check_collision (update_ball new_ball buf_zero [] 0).1
      (update_ball new_ball buf_zero [] 0).2.1 = 1 := by
  refine ⟨BallReachable.update buf_zero [] 0 BallReachable.init, by decide, by decide,
    by decide, by decide, by decide, by decide, by rfl, by decide⟩

/-- Claim C18, the code at the failing input. On the freshly built left-half
channel 0 the index `current_col - start_col` that the first `register_ball`
call uses is 8, which equals `end_col - start_col` and the length of
`bit_positions`. -/
theorem first_landing_index_out_of_range :
    ((init_channels buf_zero).1.getD 0 default).current_col -
      ((init_channels buf_zero).1.getD 0 default).start_col = 8 ∧
    ((init_channels buf_zero).1.getD 0 default).end_col -
      ((init_channels buf_zero).1.getD 0 default).start_col = 8 ∧
    ((init_channels buf_zero).1.getD 0 default).bit_positions.length = 8 := by
  rw [init_channels_value]
  decide

set_option maxRecDepth 1000000 in
set_option maxHeartbeats 4000000 in
/-- Claim C19, the code at the failing input. On channel 4 with
`ball_count = 1000` the marker of landing 568 has page -1 and column 69: the
byte index `current_col + page * DISPLAY_WIDTH` is -59. -/
theorem dist_write_below_buffer :
    (dist_nth_marker 4 1000 568).page = -1 ∧
    (dist_nth_marker 4 1000 568).col = 69 ∧
    (dist_nth_marker 4 1000 568).col + (dist_nth_marker 4 1000 568).page * DISPLAY_WIDTH
      = -59 := by
  refine ⟨by rfl, by rfl, by rfl⟩

/-- Claim C20. For every frame buffer, channel state and entropy value at each
call, a ball created by `init_balls` is still active after each of its first
54 `update_ball` calls and is inactive, at `y = DISPLAY_HEIGHT - 8`, after its
55th call. -/
theorem fall_takes_55_updates (buffers : Nat → Buffer) (chans : Nat → List Channel)
    (adcs : Nat → Nat) :
    (∀ n : Nat, n ≤ 54 → (ball_after buffers chans adcs n).active = 1) ∧
    (ball_after buffers chans adcs 55).active = 0 ∧
    (ball_after buffers chans adcs 55).y = DISPLAY_HEIGHT - 8 := by
  refine ⟨?_, ?_, ?_⟩
  · intro n hn
    obtain ⟨-, -, h3⟩ := ball_after_track buffers chans adcs n (by omega)
    rw [h3, if_neg (by have := fall_track_active n (by omega); omega)]
  · obtain ⟨-, -, h3⟩ := ball_after_track buffers chans adcs 55 (le_refl _)
    rw [h3, if_pos (by rw [fall_track_done])]
  · obtain ⟨-, h2, -⟩ := ball_after_track buffers chans adcs 55 (le_refl _)
    have := congrArg Prod.fst h2
    simp only at this
    rw [this, fall_track_done]
    decide

end Galton
